import Mathlib

/- Verification development for the core data-processing functions of
   `analisi_network_script_4.0.py` (network-traffic enrichment tool).

   Modelling conventions:
   - Python strings are Lean `String`; `None` becomes `Option`.
   - Python dicts become association lists with dict semantics
     (updating an existing key keeps its position, new keys append;
     iteration order is insertion order).
   - IPv4 addresses are `Nat` values below 2^32 obtained by parsing
     dotted-quad literals; IPv6 is out of scope (the spec declares the
     tool IPv4-only).
   - All string manipulation (strip, lower, substring, split) is spelled
     out over `List Char` so that every definition is executable and
     kernel-reducible. -/

/-- Whitespace set of Python `str.strip()` (the ASCII part, which covers the
data this tool handles). -/
def isPySpace (c : Char) : Bool :=
  c = ' ' || c = '\t' || c = '\n' || c = '\r' || c = '\x0b' || c = '\x0c'

/-- Python `str.strip()`: drop leading and trailing whitespace. -/
def strip (s : String) : String :=
  String.mk (((s.toList.dropWhile isPySpace).reverse.dropWhile isPySpace).reverse)

/-- Lower-case one character (ASCII range, matching the tool's data). -/
def lowerChar (c : Char) : Char :=
  if 'A' ≤ c ∧ c ≤ 'Z' then Char.ofNat (c.toNat + 32) else c

/-- Python `str.lower()` (ASCII). -/
def lower (s : String) : String := String.mk (s.toList.map lowerChar)

/-- Contiguous-sublist test on char lists (helper for Python's
`needle in haystack`). -/
def hasSublist (needle : List Char) : List Char → Bool
  | [] => needle.isEmpty
  | c :: rest => needle.isPrefixOf (c :: rest) || hasSublist needle rest

/-- Python substring test `needle in haystack`. -/
def containsSubstr (needle haystack : String) : Bool :=
  hasSublist needle.toList haystack.toList

/-- CSV row, modelling the Python dict produced by `csv.DictReader`. -/
abbrev Row := List (String × String)

/-- Python `row.get(k)`: value of the first (hence, for a dict, the only)
binding of the key. -/
def Row.get : Row → String → Option String
  | [], _ => none
  | p :: rest, k => if p.1 = k then some p.2 else Row.get rest k

/-- Python `row.get(k) or ""` (both a missing key and an empty value give
the empty string). -/
def Row.getS (r : Row) (k : String) : String := (Row.get r k).getD ""

/-- Python `row[k] = v`: update in place when the key exists, else append. -/
def Row.set : Row → String → String → Row
  | [], k, v => [(k, v)]
  | p :: rest, k, v => if p.1 = k then (k, v) :: rest else p :: Row.set rest k v

/-- Python `dict.get(k)` on an association list. -/
def dictGet : List (String × String) → String → Option String
  | [], _ => none
  | p :: rest, k => if p.1 = k then some p.2 else dictGet rest k

/-- Python `dict.get(k, dflt)`. -/
def dictGetD (d : List (String × String)) (k dflt : String) : String :=
  (dictGet d k).getD dflt

/-- Python `d[k] = v` on an association list (dict semantics: update keeps
the key's position, a new key appends). -/
def dictSet : List (String × String) → String → String → List (String × String)
  | [], k, v => [(k, v)]
  | p :: rest, k, v => if p.1 = k then (k, v) :: rest else p :: dictSet rest k v

/-- Inner loop of `build_ip_to_service_index`: insert every IP of one
service into the index. -/
def insertIps (svc : String) (ips : List String) (d : List (String × String)) :
    List (String × String) :=
  ips.foldl (fun d ip => dictSet d (strip ip) svc) d

/-- Model of `build_ip_to_service_index` (script lines 67-75): reverse index
from trimmed IP string to service name; no IP-syntax validation. -/
def build_ip_to_service_index (service_map : List (String × List String)) :
    List (String × String) :=
  service_map.foldl (fun d e => insertIps e.1 e.2 d) []

/-- Location normalization table `LOC_NORMALIZATION` (script lines 27-30). -/
def LOC_NORMALIZATION : List (String × String) :=
  [("risc-unknown-internet", "Public"), ("risc-unknown-private", "Private")]

/-- Port-comment table `PORT_COMMENTS` (script lines 33-38), in insertion
order as iterated by the Python dict. -/
def PORT_COMMENTS : List (Nat × String) :=
  [(25, "SMTP"), (8080, "Proxy"), (10065, "Zscaler"), (383, "Rule OMI")]

/-- True when the char list does not start with a decimal digit; models the
regex lookahead `(?!\d)` at a position. -/
def noDigitHead : List Char → Bool
  | [] => true
  | c :: _ => !c.isDigit

/-- Whole-number match of `t` at the current position of `s`; `prevOk`
records the lookbehind `(?<!\d)` (the previous char is not a digit). -/
def wholeNumAt (t s : List Char) (prevOk : Bool) : Bool :=
  prevOk && t.isPrefixOf s && noDigitHead (s.drop t.length)

/-- Scan every position of `s` for a whole-number occurrence of `t`;
models `re.search` over the pattern used by `port_matches`. -/
def wholeNumScan (t : List Char) (prevOk : Bool) : List Char → Bool
  | [] => wholeNumAt t [] prevOk
  | c :: rest => wholeNumAt t (c :: rest) prevOk || wholeNumScan t (!c.isDigit) rest

/-- Model of `port_matches` (script lines 117-130):
`re.search(rf'(?<!\d){target_port}(?!\d)', str(port_value or ""))`. -/
def port_matches (target_port : Nat) (port_value : Option String) : Bool :=
  wholeNumScan (toString target_port).toList true (port_value.getD "").toList

/-- Python local `wave_match` of `should_include_row`: the wave filter
appears as a substring in some filter column (case per flag). -/
def wave_match (row : Row) (wave_filter : String) (filter_columns : List String)
    (case_sensitive : Bool) : Bool :=
  if case_sensitive then
    filter_columns.any (fun col => containsSubstr wave_filter (Row.getS row col))
  else
    filter_columns.any (fun col =>
      containsSubstr (lower wave_filter) (lower (Row.getS row col)))

/-- Python local `server_match` of `should_include_row`: some filtered
server name appears (case-insensitively) in the source or destination
name. -/
def server_match (row : Row) (server_filter : List String) : Bool :=
  server_filter.any (fun srv =>
    containsSubstr (lower srv) (lower (strip (Row.getS row "src_name"))) ||
    containsSubstr (lower srv) (lower (strip (Row.getS row "dest_name"))))

/-- Model of `should_include_row` (script lines 218-259): wave/group filter,
optional server filter, then unconditional self-traffic exclusion. -/
def should_include_row (row : Row) (wave_filter : String) (server_filter : List String)
    (filter_columns : List String) (case_sensitive : Bool) : Bool :=
  if wave_filter ≠ "" ∧ !wave_match row wave_filter filter_columns case_sensitive then
    false
  else if server_filter ≠ [] ∧ !server_match row server_filter then false
  else if lower (strip (Row.getS row "src_name")) ≠ "" ∧
      lower (strip (Row.getS row "dest_name")) ≠ "" ∧
      lower (strip (Row.getS row "src_name")) = lower (strip (Row.getS row "dest_name"))
    then false
  else true

/-- Model of `enrich_row_with_services` (script lines 266-278): exact-match
service lookup with default `"unknown"`; always sets both columns. -/
def enrich_row_with_services (row : Row) (ip_to_service : List (String × String)) : Row :=
  let src_ip := strip (Row.getS row "src_addr")
  let dest_ip := strip (Row.getS row "dest_addr")
  Row.set (Row.set row "src_service" (dictGetD ip_to_service src_ip "unknown"))
    "dest_service" (dictGetD ip_to_service dest_ip "unknown")

/-- Numeric value of a list of decimal digit characters (most significant
first), as computed by Python `int` on a digit string. -/
def digitsVal (cs : List Char) : Nat :=
  cs.foldl (fun a c => a * 10 + (c.toNat - 48)) 0

/-- Model of `ipaddress._parse_octet`: non-empty, decimal digits only, at
most 3 chars, no leading zero (except "0" itself), value at most 255. -/
def parseOctet (s : List Char) : Option Nat :=
  if s = [] then none
  else if !s.all (fun c => c.isDigit) then none
  else if s.length > 3 then none
  else if s.length > 1 ∧ s.head? = some '0' then none
  else
    let v := digitsVal s
    if v > 255 then none else some v

/-- Python `str.split(sep)` for a one-character separator, over char lists
(`split "" = [""]`, empty fields preserved). -/
def splitOnChar (sep : Char) : List Char → List (List Char)
  | [] => [[]]
  | c :: rest =>
    if c = sep then [] :: splitOnChar sep rest
    else
      match splitOnChar sep rest with
      | [] => [[c]]
      | g :: gs => (c :: g) :: gs

/-- Model of `ipaddress.IPv4Address(s)` string parsing: exactly four octets
separated by dots; result is the 32-bit value as a `Nat`. -/
def parseIPv4 (s : String) : Option Nat :=
  match splitOnChar '.' s.toList with
  | [a, b, c, d] =>
    match parseOctet a, parseOctet b, parseOctet c, parseOctet d with
    | some va, some vb, some vc, some vd =>
      some (((va * 256 + vb) * 256 + vc) * 256 + vd)
    | _, _, _, _ => none
  | _ => none

/-- IPv4 network, modelling `ipaddress.IPv4Network`: masked network address
and prefix length (`prefixlen` in Python; abbreviated `plen` here). -/
structure Net where
  addr : Nat
  plen : Nat
deriving DecidableEq, Repr

/-- Size of the host part of a network with the given prefix length. -/
def hostBits (p : Nat) : Nat := 2 ^ (32 - p)

/-- Integer value of the netmask with the given prefix length. -/
def netmaskInt (p : Nat) : Nat := 2 ^ 32 - hostBits p

/-- Recover a prefix length from a netmask integer, if the mask is a valid
contiguous netmask (models `ipaddress._prefix_from_ip_int`). -/
def maskToPlen (m : Nat) : Option Nat :=
  (List.range 33).find? (fun p => netmaskInt p == m)

/-- Model of the prefix parsing done by `IPv4Network._make_netmask` on a
string argument: an ASCII-digit string at most 32, else a dotted-quad
netmask or hostmask. -/
def parsePlen (s : String) : Option Nat :=
  let cs := s.toList
  if cs ≠ [] ∧ cs.all (fun c => c.isDigit) then
    let v := digitsVal cs
    if v ≤ 32 then some v else none
  else
    match parseIPv4 s with
    | none => none
    | some m =>
      match maskToPlen m with
      | some p => some p
      | none => maskToPlen (2 ^ 32 - 1 - m)

/-- Model of `ipaddress.ip_network(s, strict=False)` for IPv4: split on "/"
(at most once), parse address and prefix, and mask away host bits. -/
def parseNetwork (s : String) : Option Net :=
  match splitOnChar '/' s.toList with
  | [a] => (parseIPv4 (String.mk a)).map (fun v => Net.mk (v / hostBits 32 * hostBits 32) 32)
  | [a, p] =>
    match parseIPv4 (String.mk a), parsePlen (String.mk p) with
    | some v, some pl => some (Net.mk (v / hostBits pl * hostBits pl) pl)
    | _, _ => none
  | _ => none

/-- Broadcast address of a network (`network_address | hostmask`). -/
def broadcastInt (n : Net) : Nat := n.addr + (hostBits n.plen - 1)

/-- Model of `ip_obj in network` for IPv4
(`network_address <= ip <= broadcast_address`). -/
def memNet (x : Nat) (n : Net) : Bool :=
  decide (n.addr ≤ x ∧ x ≤ broadcastInt n)

/-- Insert one entry into a list sorted by descending prefix length, after
all entries of greater or equal prefix length (stability). -/
def insertDesc (x : Net × String) : List (Net × String) → List (Net × String)
  | [] => [x]
  | y :: ys => if x.1.plen ≤ y.1.plen then y :: insertDesc x ys else x :: y :: ys

/-- Stable sort by descending prefix length, modelling
`compiled.sort(key=lambda item: item[0].prefixlen, reverse=True)`. -/
def sortByPlenDesc (l : List (Net × String)) : List (Net × String) :=
  l.foldl (fun acc x => insertDesc x acc) []

/-- Collection loop of `build_subnet_index`: parse every CIDR of every
location, silently skipping invalid ones. -/
def collectNetworks (subnets_by_location : List (String × List String)) :
    List (Net × String) :=
  subnets_by_location.foldl
    (fun acc lc =>
      lc.2.foldl
        (fun acc cidr =>
          match parseNetwork (strip cidr) with
          | some network => acc ++ [(network, lc.1)]
          | none => acc)
        acc)
    []

/-- Model of `build_subnet_index` (script lines 78-93): parse all CIDRs and
sort most-specific-first. -/
def build_subnet_index (subnets_by_location : List (String × List String)) :
    List (Net × String) :=
  sortByPlenDesc (collectNetworks subnets_by_location)

/-- Linear scan of `find_location_for_ip`: first entry whose network
contains the address. -/
def findScan (x : Nat) : List (Net × String) → Option String
  | [] => none
  | (n, loc) :: rest => if memNet x n then some loc else findScan x rest

/-- Model of `find_location_for_ip` (script lines 96-114): trim, parse as
IPv4 (returning none on empty input or parse failure), then scan. -/
def find_location_for_ip (ip_str : String) (subnet_index : List (Net × String)) :
    Option String :=
  let s := strip ip_str
  if s = "" then none
  else
    match parseIPv4 s with
    | none => none
    | some x => findScan x subnet_index

/-- Location-normalization pass of `enrich_row_with_locations` for one
column: replace a recognized raw token by its display label. -/
def normalizeLocCol (row : Row) (col : String) : Row :=
  let current := strip (Row.getS row col)
  if current ≠ "" then
    match dictGet LOC_NORMALIZATION (lower current) with
    | some normalized => Row.set row col normalized
    | none => row
  else row

/-- Model of `enrich_row_with_locations` (script lines 281-307): conditional
overwrite of `src_loc`/`dest_loc`, then the normalization pass. -/
def enrich_row_with_locations (row : Row) (subnet_index : List (Net × String)) : Row :=
  let src_ip := strip (Row.getS row "src_addr")
  let dest_ip := strip (Row.getS row "dest_addr")
  let row :=
    match find_location_for_ip src_ip subnet_index with
    | some l => Row.set row "src_loc" l
    | none => row
  let row :=
    match find_location_for_ip dest_ip subnet_index with
    | some l => Row.set row "dest_loc" l
    | none => row
  normalizeLocCol (normalizeLocCol row "src_loc") "dest_loc"

/-- First matching rule of the port-comment table (empty string when no
rule matches). -/
def firstPortComment (dest_port : Option String) : List (Nat × String) → String
  | [] => ""
  | (p, label) :: rest =>
    if port_matches p dest_port then label else firstPortComment dest_port rest

/-- Python local `comment` of `enrich_row_with_comment`: known-service
precedence, then the first matching port rule. -/
def comment_for (row : Row) : String :=
  if lower (strip (Row.getS row "src_service")) ≠ "unknown" ∨
      lower (strip (Row.getS row "dest_service")) ≠ "unknown" then
    "skip shared services"
  else firstPortComment (Row.get row "dest_port") PORT_COMMENTS

/-- Model of `enrich_row_with_comment` (script lines 310-335): known-service
precedence, then the port rules; `COMMENTO` written only when non-empty. -/
def enrich_row_with_comment (row : Row) : Row :=
  if comment_for row ≠ "" then Row.set row "COMMENTO" (comment_for row) else row

example : port_matches 25 (some "8125") = false := by decide

example : port_matches 25 (some "25") = true := by decide

example : strip "  a b " = "a b" := by decide

example : lower "Wave4" = "wave4" := by decide

example : parseIPv4 "10.0.0.5" = some 167772165 := by decide

example : parseIPv4 "10.0.0.256" = none := by decide

example : parseIPv4 "10.0.0.05" = none := by decide

example : parseNetwork "10.1.2.3/24" = some (Net.mk 167838208 24) := by decide

example : parseNetwork "10.0.0.0/255.255.255.0" = some (Net.mk 167772160 24) := by decide

example : find_location_for_ip "10.0.0.5" (build_subnet_index [("DC1", ["10.0.0.0/24"])]) = some "DC1" := by decide

/- ==================== access lemmas for rows and dicts ==================== -/

theorem Row.get_set_self (r : Row) (k v : String) :
    Row.get (Row.set r k v) k = some v := by
  induction r with
  | nil => simp [Row.set, Row.get]
  | cons p rest ih =>
    by_cases h : p.1 = k
    · simp [Row.set, h, Row.get]
    · simp [Row.set, h, Row.get, ih]

theorem Row.get_set_ne (r : Row) (k v k' : String) (h : k' ≠ k) :
    Row.get (Row.set r k v) k' = Row.get r k' := by
  have hk : k ≠ k' := fun hh => h hh.symm
  induction r with
  | nil => simp [Row.set, Row.get, hk]
  | cons p rest ih =>
    by_cases hp : p.1 = k
    · have hp' : p.1 ≠ k' := by rw [hp]; exact hk
      simp [Row.set, Row.get, hp, hk, hp']
    · by_cases hp' : p.1 = k' <;> simp [Row.set, Row.get, hp, hp', ih, h]

theorem dictGet_dictSet_self (d : List (String × String)) (k v : String) :
    dictGet (dictSet d k v) k = some v := by
  induction d with
  | nil => simp [dictSet, dictGet]
  | cons p rest ih =>
    by_cases h : p.1 = k
    · simp [dictSet, h, dictGet]
    · simp [dictSet, h, dictGet, ih]

theorem dictGet_dictSet_ne (d : List (String × String)) (k v k' : String) (h : k' ≠ k) :
    dictGet (dictSet d k v) k' = dictGet d k' := by
  have hk : k ≠ k' := fun hh => h hh.symm
  induction d with
  | nil => simp [dictSet, dictGet, hk]
  | cons p rest ih =>
    by_cases hp : p.1 = k
    · have hp' : p.1 ≠ k' := by rw [hp]; exact hk
      simp [dictSet, dictGet, hp, hk, hp']
    · by_cases hp' : p.1 = k' <;> simp [dictSet, dictGet, hp, hp', ih, h]

/- ==================== service-index origin lemmas ==================== -/

theorem insertIps_cons (svc ip : String) (ips : List String) (d : List (String × String)) :
    insertIps svc (ip :: ips) d = insertIps svc ips (dictSet d (strip ip) svc) := rfl

theorem dictGet_insertIps (svc : String) (ips : List String)
    (d : List (String × String)) (k v : String)
    (h : dictGet (insertIps svc ips d) k = some v) :
    dictGet d k = some v ∨ (v = svc ∧ ∃ ip ∈ ips, strip ip = k) := by
  induction ips generalizing d with
  | nil => exact Or.inl h
  | cons ip ips ih =>
    have h' := ih (d := dictSet d (strip ip) svc) h
    rcases h' with h' | ⟨hv, ip', hip', hk⟩
    · by_cases hk : k = strip ip
      · subst hk
        rw [dictGet_dictSet_self] at h'
        exact Or.inr ⟨(Option.some_inj.mp h').symm, ip, List.mem_cons_self .., rfl⟩
      · rw [dictGet_dictSet_ne _ _ _ _ hk] at h'
        exact Or.inl h'
    · exact Or.inr ⟨hv, ip', List.mem_cons_of_mem _ hip', hk⟩

theorem dictGet_build_index (service_map : List (String × List String))
    (k v : String)
    (h : dictGet (build_ip_to_service_index service_map) k = some v) :
    ∃ ips, (v, ips) ∈ service_map ∧ ∃ ip ∈ ips, strip ip = k := by
  suffices H : ∀ (sm : List (String × List String)) (d : List (String × String)),
      dictGet (sm.foldl (fun d e => insertIps e.1 e.2 d) d) k = some v →
      dictGet d k = some v ∨ ∃ ips, (v, ips) ∈ sm ∧ ∃ ip ∈ ips, strip ip = k by
    rcases H service_map [] h with h' | h'
    · simp [dictGet] at h'
    · exact h'
  intro sm
  induction sm with
  | nil => exact fun d h => Or.inl h
  | cons e sm ih =>
    intro d h
    rcases ih (insertIps e.1 e.2 d) h with h' | ⟨ips, hmem, hip⟩
    · rcases dictGet_insertIps e.1 e.2 d k v h' with h'' | ⟨hv, ip, hip, hk⟩
      · exact Or.inl h''
      · refine Or.inr ⟨e.2, ?_, ip, hip, hk⟩
        rw [hv, Prod.mk.eta]
        exact List.mem_cons_self _ _
    · exact Or.inr ⟨ips, List.mem_cons_of_mem _ hmem, hip⟩

theorem dictGet_insertIps_isSome_of (svc : String) (ips : List String)
    (d : List (String × String)) (k : String)
    (h : (dictGet d k).isSome) : (dictGet (insertIps svc ips d) k).isSome := by
  induction ips generalizing d with
  | nil => exact h
  | cons ip ips ih =>
    refine ih (d := dictSet d (strip ip) svc) ?_
    by_cases hk : k = strip ip
    · subst hk; rw [dictGet_dictSet_self]; rfl
    · rw [dictGet_dictSet_ne _ _ _ _ hk]; exact h

theorem dictGet_insertIps_isSome (svc : String) (ips : List String)
    (d : List (String × String)) (ip : String) (hip : ip ∈ ips) :
    (dictGet (insertIps svc ips d) (strip ip)).isSome := by
  induction ips generalizing d with
  | nil => cases hip
  | cons ip' ips ih =>
    rw [insertIps_cons]
    rcases List.mem_cons.mp hip with h | h
    · subst h
      exact dictGet_insertIps_isSome_of svc ips _ _ (by rw [dictGet_dictSet_self]; rfl)
    · exact ih (dictSet d (strip ip') svc) h

theorem dictGet_build_index_isSome (service_map : List (String × List String))
    (svc : String) (ips : List String) (ip : String)
    (hmem : (svc, ips) ∈ service_map) (hip : ip ∈ ips) :
    (dictGet (build_ip_to_service_index service_map) (strip ip)).isSome := by
  suffices H : ∀ (sm : List (String × List String)) (d : List (String × String)),
      (svc, ips) ∈ sm →
      (dictGet (sm.foldl (fun d e => insertIps e.1 e.2 d) d) (strip ip)).isSome by
    exact H service_map [] hmem
  intro sm
  induction sm with
  | nil => intro d h; cases h
  | cons e sm ih =>
    intro d h
    rcases List.mem_cons.mp h with h | h
    · subst h
      suffices H2 : ∀ (sm : List (String × List String)) (d : List (String × String)),
          (dictGet d (strip ip)).isSome →
          (dictGet (sm.foldl (fun d e => insertIps e.1 e.2 d) d) (strip ip)).isSome by
        exact H2 sm _ (dictGet_insertIps_isSome svc ips d ip hip)
      intro sm2
      induction sm2 with
      | nil => exact fun d h => h
      | cons e2 sm2 ih2 =>
        exact fun d h => ih2 _ (dictGet_insertIps_isSome_of e2.1 e2.2 d _ h)
    · exact ih _ h

/- ==================== sortedness of the subnet index ==================== -/

/-- Ordering invariant of the subnet index: prefix lengths are
non-increasing along the list. -/
def plenGe (a b : Net × String) : Prop := b.1.plen ≤ a.1.plen

theorem mem_insertDesc {x y : Net × String} {l : List (Net × String)}
    (h : y ∈ insertDesc x l) : y = x ∨ y ∈ l := by
  induction l with
  | nil => exact Or.inl (List.mem_singleton.mp h)
  | cons z zs ih =>
    by_cases hc : x.1.plen ≤ z.1.plen
    · rw [insertDesc, if_pos hc] at h
      rcases List.mem_cons.mp h with h | h
      · exact Or.inr (h ▸ List.mem_cons_self _ _)
      · rcases ih h with h | h
        · exact Or.inl h
        · exact Or.inr (List.mem_cons_of_mem _ h)
    · rw [insertDesc, if_neg hc] at h
      rcases List.mem_cons.mp h with h | h
      · exact Or.inl h
      · exact Or.inr h

theorem insertDesc_pairwise (x : Net × String) (l : List (Net × String))
    (hl : l.Pairwise plenGe) : (insertDesc x l).Pairwise plenGe := by
  induction l with
  | nil => simp [insertDesc]
  | cons y ys ih =>
    rw [List.pairwise_cons] at hl
    obtain ⟨hy, hys⟩ := hl
    by_cases hc : x.1.plen ≤ y.1.plen
    · rw [insertDesc, if_pos hc, List.pairwise_cons]
      refine ⟨fun a ha => ?_, ih hys⟩
      rcases mem_insertDesc ha with h | h
      · rw [h]; exact hc
      · exact hy a h
    · rw [insertDesc, if_neg hc, List.pairwise_cons]
      refine ⟨fun a ha => ?_, List.pairwise_cons.mpr ⟨hy, hys⟩⟩
      have hyx : y.1.plen ≤ x.1.plen := Nat.le_of_lt (Nat.lt_of_not_le hc)
      rcases List.mem_cons.mp ha with h | h
      · rw [h]; exact hyx
      · exact Nat.le_trans (hy a h) hyx

theorem sortByPlenDesc_pairwise (l : List (Net × String)) :
    (sortByPlenDesc l).Pairwise plenGe := by
  suffices H : ∀ acc : List (Net × String), acc.Pairwise plenGe →
      (l.foldl (fun acc x => insertDesc x acc) acc).Pairwise plenGe by
    exact H [] (List.Pairwise.nil)
  induction l with
  | nil => exact fun acc h => h
  | cons x xs ih => exact fun acc h => ih _ (insertDesc_pairwise x acc h)

theorem build_subnet_index_pairwise (m : List (String × List String)) :
    (build_subnet_index m).Pairwise plenGe :=
  sortByPlenDesc_pairwise _

theorem findScan_longest (x : Nat) (l : List (Net × String)) (hl : l.Pairwise plenGe)
    (n : Net) (loc : String) (hmem : (n, loc) ∈ l) (hx : memNet x n = true)
    (hmax : ∀ e ∈ l, memNet x e.1 = true → e = (n, loc) ∨ e.1.plen < n.plen) :
    findScan x l = some loc := by
  induction l with
  | nil => cases hmem
  | cons e rest ih =>
    rw [List.pairwise_cons] at hl
    obtain ⟨he, hrest⟩ := hl
    obtain ⟨n0, loc0⟩ := e
    by_cases h0 : memNet x n0 = true
    · rw [findScan, if_pos h0]
      rcases hmax (n0, loc0) (List.mem_cons_self _ _) h0 with h | h
      · rw [(Prod.mk.injEq .. ).mp h |>.2]
      · exfalso
        rcases List.mem_cons.mp hmem with hm | hm
        · have : n = n0 := ((Prod.mk.injEq .. ).mp hm).1
          rw [this] at h
          exact Nat.lt_irrefl _ h
        · have hle : n.plen ≤ n0.plen := he (n, loc) hm
          exact Nat.lt_irrefl _ (Nat.lt_of_lt_of_le h hle)
    · rw [findScan, if_neg h0]
      have hmem' : (n, loc) ∈ rest := by
        rcases List.mem_cons.mp hmem with hm | hm
        · exfalso
          have : n = n0 := ((Prod.mk.injEq .. ).mp hm).1
          rw [this] at hx
          exact h0 hx
        · exact hm
      exact ih hrest hmem' (fun e he' hxe => hmax e (List.mem_cons_of_mem _ he') hxe)

/- ==================== claim theorems: indices and enrichment ==================== -/

/-- C1: longest-prefix correctness of location resolution. For every
LocationMap, if the compiled index `build_subnet_index` contains an entry
`(n, loc)` whose network contains the address `x` (parsed from the trimmed
input string), and every other index entry containing `x` has a strictly
shorter prefix (the claim's "overlapping networks of different prefix
lengths"), then `find_location_for_ip` returns `loc`, the location of the
longest-prefix network. -/
theorem C1_longest_match (subnets_by_location : List (String × List String))
    (s : String) (x : Nat) (n : Net) (loc : String)
    (hparse : parseIPv4 (strip s) = some x)
    (hmem : (n, loc) ∈ build_subnet_index subnets_by_location)
    (hx : memNet x n = true)
    (hmax : ∀ e ∈ build_subnet_index subnets_by_location,
      memNet x e.1 = true → e = (n, loc) ∨ e.1.plen < n.plen) :
    find_location_for_ip s (build_subnet_index subnets_by_location) = some loc := by
  unfold find_location_for_ip
  have hne : strip s ≠ "" := by
    intro h
    rw [h] at hparse
    exact Option.noConfusion ((by decide : parseIPv4 "" = none) ▸ hparse)
  rw [if_neg hne, hparse]
  exact findScan_longest x _ (build_subnet_index_pairwise _) n loc hmem hx hmax

/-- C1 witness: a concrete map with two overlapping networks (/16 and /24)
both containing 10.0.0.1; the /24 location wins. -/
theorem C1_witness :
    find_location_for_ip "10.0.0.1"
      (build_subnet_index [("B", ["10.0.0.0/16"]), ("A", ["10.0.0.0/24"])]) = some "A" :=
  C1_longest_match [("B", ["10.0.0.0/16"]), ("A", ["10.0.0.0/24"])]
    "10.0.0.1" 167772161 (Net.mk 167772160 24) "A"
    (by decide) (by decide) (by decide) (by decide)

/-- Input row of the C2 end-to-end scenario. -/
def c2Row : Row :=
  [("src_group", "Wave4"), ("dest_group", "Wave4"), ("src_addr", "10.0.0.5"),
   ("dest_addr", "10.0.0.9"), ("dest_port", "25"), ("src_name", "host1"),
   ("dest_name", "host2")]

/-- Fully enriched C2 row: the three enrichment steps in the driver's order
(services, locations, comment), with an empty service map and the location
map containing only DC1 = 10.0.0.0/24. -/
def c2Final : Row :=
  enrich_row_with_comment
    (enrich_row_with_locations
      (enrich_row_with_services c2Row (build_ip_to_service_index []))
      (build_subnet_index [("DC1", ["10.0.0.0/24"])]))

/-- C2: end-to-end enrichment scenario. The row
`Wave4,Wave4,10.0.0.5,10.0.0.9,25,host1,host2` passes the wave filter
"Wave4" and, after the three enrichment steps with an empty service map and
location map DC1 = 10.0.0.0/24, carries `src_service=unknown,
dest_service=unknown, src_loc=DC1, dest_loc=DC1, COMMENTO=SMTP`. -/
theorem C2_end_to_end_scenario :
    should_include_row c2Row "Wave4" [] ["src_group", "dest_group"] true = true ∧
    Row.get c2Final "src_service" = some "unknown" ∧
    Row.get c2Final "dest_service" = some "unknown" ∧
    Row.get c2Final "src_loc" = some "DC1" ∧
    Row.get c2Final "dest_loc" = some "DC1" ∧
    Row.get c2Final "COMMENTO" = some "SMTP" := by decide

/-- C3: comment precedence and whole-number port matching. If either
service column differs (after trim and case-fold) from "unknown",
`enrich_row_with_comment` writes `COMMENTO = "skip shared services"` and
so never a port-based comment; if both are "unknown" and the destination
port is "8080", the first matching rule of the fixed table gives "Proxy";
and the port value "8125" does not match rule 25 (whole-number boundary). -/
theorem C3_comment_precedence (row : Row) :
    ((lower (strip (Row.getS row "src_service")) ≠ "unknown" ∨
        lower (strip (Row.getS row "dest_service")) ≠ "unknown") →
      Row.get (enrich_row_with_comment row) "COMMENTO" = some "skip shared services") ∧
    (lower (strip (Row.getS row "src_service")) = "unknown" →
      lower (strip (Row.getS row "dest_service")) = "unknown" →
      Row.get row "dest_port" = some "8080" →
      Row.get (enrich_row_with_comment row) "COMMENTO" = some "Proxy") ∧
    port_matches 25 (some "8125") = false := by
  refine ⟨?_, ?_, by decide⟩
  · intro h
    have hc : comment_for row = "skip shared services" := by
      unfold comment_for
      rw [if_pos h]
    unfold enrich_row_with_comment
    rw [hc, if_pos (by decide : ("skip shared services" : String) ≠ "")]
    exact Row.get_set_self _ _ _
  · intro h1 h2 h3
    have hc : comment_for row = "Proxy" := by
      unfold comment_for
      rw [if_neg (by simp [h1, h2]), h3]
      decide
    unfold enrich_row_with_comment
    rw [hc, if_pos (by decide : ("Proxy" : String) ≠ "")]
    exact Row.get_set_self _ _ _

/-- C3 witness: concrete instantiations of both conditional parts (one row
with a known source service, one row with both services unknown and
destination port 8080). -/
theorem C3_witness :
    Row.get (enrich_row_with_comment [("src_service", "KMS"), ("dest_service", "unknown")])
      "COMMENTO" = some "skip shared services" ∧
    Row.get (enrich_row_with_comment
      [("src_service", "unknown"), ("dest_service", "unknown"), ("dest_port", "8080")])
      "COMMENTO" = some "Proxy" :=
  ⟨(C3_comment_precedence _).1 (by decide),
   (C3_comment_precedence _).2.1 (by decide) (by decide) (by decide)⟩

/-- C4: unconditional self-traffic exclusion. Whenever the trimmed,
case-folded `src_name` and `dest_name` of a row are both non-empty and
equal, `should_include_row` returns false for every combination of wave
filter, server filter, filter columns and case-sensitivity flag. -/
theorem C4_self_traffic_excluded (row : Row) (wave_filter : String)
    (server_filter : List String) (filter_columns : List String)
    (case_sensitive : Bool)
    (hs : lower (strip (Row.getS row "src_name")) ≠ "")
    (hd : lower (strip (Row.getS row "dest_name")) ≠ "")
    (heq : lower (strip (Row.getS row "src_name")) =
      lower (strip (Row.getS row "dest_name"))) :
    should_include_row row wave_filter server_filter filter_columns case_sensitive
      = false := by
  unfold should_include_row
  split
  · rfl
  · split
    · rfl
    · rw [if_pos ⟨hs, hd, heq⟩]

/-- C4 witness: a concrete self-talking row is rejected even with no
filters configured at all. -/
theorem C4_witness :
    should_include_row [("src_name", "Host1 "), ("dest_name", "host1")] "" [] [] true
      = false :=
  C4_self_traffic_excluded _ "" [] [] true (by decide) (by decide) (by decide)

/-- C9 counterexample: `build_ip_to_service_index` performs no IPv4-syntax
validation, so a ServiceMap entry that is not an IP literal becomes an
index key that does not parse as an IPv4 address, refuting the claim that
every key of the index parses as an IPv4 address for every ServiceMap. -/
theorem C9_counterexample :
    dictGet (build_ip_to_service_index [("svc", ["not-an-ip"])]) "not-an-ip"
      = some "svc" ∧
    parseIPv4 "not-an-ip" = none := by decide

/-- C9 (amended): every key of the index produced by
`build_ip_to_service_index` is the trimmed form of an IP string listed in
the ServiceMap under the service the key maps to; the builder itself
validates nothing, so keys parse as IPv4 exactly when the map's entries do:
whenever every listed string trims to a parseable IPv4 literal, every key
parses as an IPv4 address. -/
theorem C9_amended_key_origin (service_map : List (String × List String))
    (k v : String)
    (h : dictGet (build_ip_to_service_index service_map) k = some v) :
    (∃ ips, (v, ips) ∈ service_map ∧ ∃ ip ∈ ips, strip ip = k) ∧
    ((∀ svc ips, (svc, ips) ∈ service_map →
        ∀ ip ∈ ips, (parseIPv4 (strip ip)).isSome) →
      (parseIPv4 k).isSome) := by
  refine ⟨dictGet_build_index _ _ _ h, fun hall => ?_⟩
  obtain ⟨ips, hmem, ip, hip, hk⟩ := dictGet_build_index _ _ _ h
  exact hk ▸ hall v ips hmem ip hip

/-- C9 witness: a well-formed one-entry ServiceMap whose key " 10.0.0.1 "
is stored trimmed and parses as IPv4. -/
theorem C9_amended_witness :
    (∃ ips, ("svc", ips) ∈ [("svc", [" 10.0.0.1 "])] ∧
      ∃ ip ∈ ips, strip ip = "10.0.0.1") ∧
    ((∀ svc ips, (svc, ips) ∈ [("svc", [" 10.0.0.1 "])] →
        ∀ ip ∈ ips, (parseIPv4 (strip ip)).isSome) →
      (parseIPv4 "10.0.0.1").isSome) :=
  C9_amended_key_origin [("svc", [" 10.0.0.1 "])] "10.0.0.1" "svc" (by decide)

/-- C10: implicit empty-address edge case. If some ServiceMap entry's IP
string trims to the empty string, the index built by
`build_ip_to_service_index` maps `""` to a service, and
`enrich_row_with_services` then assigns that service (instead of
"unknown") as `src_service` (resp. `dest_service`) for every row whose
`src_addr` (resp. `dest_addr`) is missing, empty, or whitespace-only. -/
theorem C10_blank_address_service (service_map : List (String × List String))
    (svc : String) (ips : List String) (ip : String) (row : Row)
    (hmem : (svc, ips) ∈ service_map) (hip : ip ∈ ips) (hblank : strip ip = "") :
    ∃ svc2,
      dictGet (build_ip_to_service_index service_map) "" = some svc2 ∧
      (strip (Row.getS row "src_addr") = "" →
        Row.get (enrich_row_with_services row (build_ip_to_service_index service_map))
          "src_service" = some svc2) ∧
      (strip (Row.getS row "dest_addr") = "" →
        Row.get (enrich_row_with_services row (build_ip_to_service_index service_map))
          "dest_service" = some svc2) := by
  have hs := dictGet_build_index_isSome service_map svc ips ip hmem hip
  rw [hblank] at hs
  obtain ⟨svc2, hsvc2⟩ := Option.isSome_iff_exists.mp hs
  refine ⟨svc2, hsvc2, fun hsrc => ?_, fun hdest => ?_⟩
  · unfold enrich_row_with_services
    rw [Row.get_set_ne _ _ _ _ (by decide), Row.get_set_self, hsrc]
    simp [dictGetD, hsvc2]
  · unfold enrich_row_with_services
    rw [Row.get_set_self, hdest]
    simp [dictGetD, hsvc2]

/-- C10 witness: a ServiceMap with a whitespace-only IP entry and a row
whose source address is blank and whose destination address is missing. -/
theorem C10_witness :
    ∃ svc2,
      dictGet (build_ip_to_service_index [("blanksvc", ["  "])]) "" = some svc2 ∧
      (strip (Row.getS [("src_addr", " ")] "src_addr") = "" →
        Row.get (enrich_row_with_services [("src_addr", " ")]
          (build_ip_to_service_index [("blanksvc", ["  "])])) "src_service"
          = some svc2) ∧
      (strip (Row.getS [("src_addr", " ")] "dest_addr") = "" →
        Row.get (enrich_row_with_services [("src_addr", " ")]
          (build_ip_to_service_index [("blanksvc", ["  "])])) "dest_service"
          = some svc2) :=
  C10_blank_address_service [("blanksvc", ["  "])] "blanksvc" ["  "] "  "
    [("src_addr", " ")] (by decide) (by decide) (by decide)

/- ==================== model of run_user_python_code ==================== -/

/-- File-system operations performed by `run_user_python_code`, in program
order. `replaceFinal` (the `os.replace` of the temporary file onto the
timestamped destination path) is the only operation that creates or
modifies the destination output path. -/
inductive FsOp
  | countOpen
  | openSrc
  | createTmp
  | writeHeader (fieldnames : List String)
  | readRow
  | seekStart
  | writeRow (row : Row)
  | closeTmp
  | replaceFinal
deriving DecidableEq, Repr

/-- Observable events of one run: file-system operations, the `log_put`
call sites (with their arguments), and the `progress_set` calls. -/
inductive Event
  | fs (op : FsOp)
  | logFound (n : Nat)
  | logServers (l : List String)
  | logWave (w : String)
  | logCountStart
  | logTotal (n : Nat)
  | milestone (k pct : Nat)
  | rowLog (processed total pct : Nat)
  | progress (v : Nat)
  | logDone
  | logSummary (srv : String) (outb inb : Nat)
deriving DecidableEq, Repr

/-- Driver constant `FILTER_COLUMNS` (script line 415). -/
def FILTER_COLUMNS : List String := ["src_group", "dest_group"]

/-- Driver constant `CASE_SENSITIVE` (script line 416). -/
def CASE_SENSITIVE : Bool := true

/-- Driver constant `THRESHOLDS` (script line 365). -/
def THRESHOLDS : List Nat := [0, 25, 50, 75, 100]

/-- Error message of the injected I/O failure (models an `OSError` raised
by a file operation). -/
def ioErrorMsg : String := "I/O error"

/-- Message of the missing-filter-columns `ValueError` (script line 437). -/
def missingColsMsg (missing : List String) : String :=
  "Missing columns: " ++ String.intercalate ", " missing

/-- Message of the missing-name-columns `ValueError` (script line 441). -/
def nameColsMsg : String := "Colonne 'src_name' o 'dest_name' non trovate nel CSV"

/-- Whether the file-system operation with the given sequence number
succeeds under the failure injection `failAt`. -/
def fsOk (failAt : Option Nat) (cnt : Nat) : Bool :=
  match failAt with
  | none => true
  | some n => !(n == cnt)

/-- Progress percentage (script line 496):
`int(processed * 100 / total) if total else 0`. -/
def pctOf (processed total : Nat) : Nat :=
  if total = 0 then 0 else processed * 100 / total

/-- Python `{srv: 0 for srv in server_filter}` as an association list. -/
def initCounters (server_filter : List String) : List (String × Nat) :=
  server_filter.foldl
    (fun d s => if d.any (fun p => p.1 == s) then d else d ++ [(s, 0)]) []

/-- Python `counter[srv] += 1` on an association list. -/
def bumpCounter : List (String × Nat) → String → List (String × Nat)
  | [], _ => []
  | p :: rest, k => if p.1 = k then (p.1, p.2 + 1) :: rest else p :: bumpCounter rest k

/-- Python `counter.get(srv, 0)`. -/
def cntGet : List (String × Nat) → String → Nat
  | [], _ => 0
  | p :: rest, k => if p.1 = k then p.2 else cntGet rest k

/-- Counter update of the processing loop (script lines 472-483): for each
filtered server, outbound and inbound substring tests fire independently. -/
def updCounters (server_filter : List String) (row : Row)
    (outb inb : List (String × Nat)) : List (String × Nat) × List (String × Nat) :=
  server_filter.foldl
    (fun oi srv =>
      (if containsSubstr (lower srv) (lower (strip (Row.getS row "src_name"))) then
        bumpCounter oi.1 srv
      else oi.1,
      if containsSubstr (lower srv) (lower (strip (Row.getS row "dest_name"))) then
        bumpCounter oi.2 srv
      else oi.2))
    (outb, inb)

/-- Mutable state of the processing loop: `processed`, `next_step`,
`last_ui_progress`, `last_ui_log`, the file-system operation counter, and
the two traffic counters. -/
structure St2 where
  processed : Nat
  nextStep : Nat
  lastProg : Int
  lastLog : Int
  fsCnt : Nat
  outb : List (String × Nat)
  inb : List (String × Nat)
deriving Repr

/-- Result of the counting pass. -/
structure Pass1Out where
  events : List Event
  fsCnt : Nat
  total : Nat
  error : Option String
deriving Repr

/-- Result of the processing pass. -/
structure Pass2Out where
  events : List Event
  st : St2
  error : Option String
deriving Repr

/-- Counting pass (script lines 454-458): stream the input once, applying
only the row filter, to count the rows that will be processed. Each row
read is a file-system operation subject to failure injection. -/
def pass1 (failAt : Option Nat) (server_filter : List String) (wave_filter : String) :
    List Row → Nat → Nat → Pass1Out
  | [], fsCnt, acc => ⟨[], fsCnt, acc, none⟩
  | row :: rest, fsCnt, acc =>
    if !fsOk failAt fsCnt then ⟨[], fsCnt, acc, some ioErrorMsg⟩
    else
      let r := pass1 failAt server_filter wave_filter rest (fsCnt + 1)
        (if should_include_row row wave_filter server_filter FILTER_COLUMNS CASE_SENSITIVE
          then acc + 1 else acc)
      ⟨Event.fs FsOp.readRow :: r.events, r.fsCnt, r.total, r.error⟩

/-- Progress-accounting tail of one surviving-row iteration (script lines
493-510): increment `processed`, compute the percentage, fire at most one
milestone step, and push the throttled progress and row-log callbacks
(each also fired unconditionally on the final row). Returns the emitted
events and the updated state. -/
def stepEvents (st3 : St2) (total : Nat) (now : Int) : List Event × St2 :=
  let processed := st3.processed + 1
  let pct := pctOf processed total
  let fire := st3.nextStep < THRESHOLDS.length ∧ THRESHOLDS.getD st3.nextStep 0 ≤ pct
  let evM : List Event := if fire then [Event.milestone st3.nextStep pct] else []
  let nextStep := if fire then st3.nextStep + 1 else st3.nextStep
  let sendP := 1 ≤ now - st3.lastProg ∨ processed = total
  let evP : List Event := if sendP then [Event.progress pct] else []
  let lastProg := if sendP then now else st3.lastProg
  let sendL := 2 ≤ now - st3.lastLog ∨ processed = total
  let evL : List Event := if sendL then [Event.rowLog processed total pct] else []
  let lastLog := if sendL then now else st3.lastLog
  (evM ++ evP ++ evL,
    { st3 with
      processed := processed
      nextStep := nextStep
      lastProg := lastProg
      lastLog := lastLog })

/-- State after the counter update and the two file-system operations
(row read, row write) of one surviving-row iteration; `processed`,
`next_step` and the throttle clocks are untouched. -/
def midState (st : St2) (server_filter : List String) (row : Row) : St2 :=
  let oi :=
    if server_filter ≠ [] then updCounters server_filter row st.outb st.inb
    else (st.outb, st.inb)
  { st with fsCnt := st.fsCnt + 2, outb := oi.1, inb := oi.2 }

/-- Processing pass (script lines 466-510): filter, update counters,
enrich, write; then progress accounting with milestone steps and throttled
progress/log callbacks (`times i` is the wall-clock value of the
`time.time()` call of the i-th surviving row). On an error the returned
state is the entry state (it is not consumed by the driver). -/
def pass2 (failAt : Option Nat) (times : Nat → Int) (svcIdx : List (String × String))
    (subIdx : List (Net × String)) (server_filter : List String) (wave_filter : String)
    (total : Nat) : List Row → St2 → Pass2Out
  | [], st => ⟨[], st, none⟩
  | row :: rest, st =>
    if !fsOk failAt st.fsCnt then ⟨[], st, some ioErrorMsg⟩
    else if !should_include_row row wave_filter server_filter FILTER_COLUMNS
        CASE_SENSITIVE then
      let r := pass2 failAt times svcIdx subIdx server_filter wave_filter total rest
        { st with fsCnt := st.fsCnt + 1 }
      ⟨Event.fs FsOp.readRow :: r.events, r.st, r.error⟩
    else
      let row' := enrich_row_with_comment
        (enrich_row_with_locations (enrich_row_with_services row svcIdx) subIdx)
      if !fsOk failAt (st.fsCnt + 1) then
        ⟨[Event.fs FsOp.readRow], st, some ioErrorMsg⟩
      else
        let es := stepEvents (midState st server_filter row) total (times st.processed)
        let r := pass2 failAt times svcIdx subIdx server_filter wave_filter total rest es.2
        ⟨Event.fs FsOp.readRow :: Event.fs (FsOp.writeRow row') :: (es.1 ++ r.events),
          r.st, r.error⟩

/-- Result of one run: the ordered event trace and the error, if any. -/
structure RunResult where
  events : List Event
  error : Option String
deriving Repr

/-- Summary log lines of the counters (script lines 522-527). -/
def summaryEvents (server_filter : List String) (outb inb : List (String × Nat)) :
    List Event :=
  server_filter.map (fun srv => Event.logSummary srv (cntGet outb srv) (cntGet inb srv))

/-- Events logged before the input is opened for the two passes (script
lines 386-422): the raw line count, the initial log lines, and the
counting-start announcement. -/
def evsPre (n : Nat) (server_filter : List String) (wave_filter : String) : List Event :=
  ([Event.fs FsOp.countOpen, Event.logFound n] ++
    (if server_filter ≠ [] then [Event.logServers server_filter] else []) ++
    (if wave_filter ≠ "" then [Event.logWave wave_filter] else [])) ++
  [Event.logCountStart]

/-- Events up to the temporary file's creation. -/
def evsTmp (n : Nat) (server_filter : List String) (wave_filter : String) : List Event :=
  evsPre n server_filter wave_filter ++ [Event.fs FsOp.openSrc, Event.fs FsOp.createTmp]

/-- Python `missing` of the column validation (script line 435). -/
def missingCols (hdr : List String) : List String :=
  FILTER_COLUMNS.filter (fun c => !hdr.contains c)

/-- Output column list `fieldnames` (script lines 444-447): input header
plus the absent enrichment columns, in the fixed append order. -/
def outCols (hdr : List String) : List String :=
  hdr ++ (["src_service", "dest_service", "src_loc", "dest_loc", "COMMENTO"].filter
    (fun c => !hdr.contains c))

/-- Events up to and including the header write. -/
def evsHdr (n : Nat) (server_filter : List String) (wave_filter : String)
    (hdr : List String) : List Event :=
  evsTmp n server_filter wave_filter ++ [Event.fs (FsOp.writeHeader (outCols hdr))]

/-- Initial processing-loop state (script lines 408-411 and 425-426). -/
def st0 (server_filter : List String) (cnt : Nat) : St2 :=
  ⟨0, 0, 0, 0, cnt, initCounters server_filter, initCounters server_filter⟩

/-- Result of the counting pass as invoked by the driver (the four
file-system operations 0-3 precede it). -/
def r1R (failAt : Option Nat) (server_filter : List String) (wave_filter : String)
    (rows : List Row) : Pass1Out :=
  pass1 failAt server_filter wave_filter rows 4 0

/-- Result of the processing pass as invoked by the driver. -/
def r2R (failAt : Option Nat) (times : Nat → Int)
    (srv_map loc_map : List (String × List String))
    (server_filter : List String) (wave_filter : String) (rows : List Row) : Pass2Out :=
  pass2 failAt times (build_ip_to_service_index srv_map) (build_subnet_index loc_map)
    server_filter wave_filter (r1R failAt server_filter wave_filter rows).total rows
    (st0 server_filter ((r1R failAt server_filter wave_filter rows).fsCnt + 1))

/-- Model of `run_user_python_code` (script lines 342-527), from the point
where the two mapping tables have been loaded (the Excel loader is the
spec's external collaborator; `srv_map`/`loc_map` are its result). The
input file is `hdr` (the header) plus `rows`; `times` is the wall clock
sampled once per surviving row; `failAt` injects a failure into the n-th
file-system operation (none = no failure). -/
def run_user_python_code (hdr : List String) (rows : List Row)
    (server_filter : List String) (wave_filter : String)
    (srv_map loc_map : List (String × List String))
    (times : Nat → Int) (failAt : Option Nat) : RunResult :=
  if !fsOk failAt 0 then ⟨[], some ioErrorMsg⟩
  else if !fsOk failAt 1 then ⟨evsPre rows.length server_filter wave_filter,
    some ioErrorMsg⟩
  else if !fsOk failAt 2 then ⟨evsPre rows.length server_filter wave_filter ++
    [Event.fs FsOp.openSrc], some ioErrorMsg⟩
  else if missingCols hdr ≠ [] then ⟨evsTmp rows.length server_filter wave_filter,
    some (missingColsMsg (missingCols hdr))⟩
  else if server_filter ≠ [] ∧ (!hdr.contains "src_name" ∨ !hdr.contains "dest_name")
    then ⟨evsTmp rows.length server_filter wave_filter, some nameColsMsg⟩
  else if !fsOk failAt 3 then ⟨evsTmp rows.length server_filter wave_filter,
    some ioErrorMsg⟩
  else if (r1R failAt server_filter wave_filter rows).error.isSome then
    ⟨evsHdr rows.length server_filter wave_filter hdr ++
      (r1R failAt server_filter wave_filter rows).events,
      (r1R failAt server_filter wave_filter rows).error⟩
  else if !fsOk failAt (r1R failAt server_filter wave_filter rows).fsCnt then
    ⟨evsHdr rows.length server_filter wave_filter hdr ++
      (r1R failAt server_filter wave_filter rows).events ++
      [Event.logTotal (r1R failAt server_filter wave_filter rows).total],
      some ioErrorMsg⟩
  else if (r2R failAt times srv_map loc_map server_filter wave_filter rows).error.isSome
    then
    ⟨evsHdr rows.length server_filter wave_filter hdr ++
      (r1R failAt server_filter wave_filter rows).events ++
      [Event.logTotal (r1R failAt server_filter wave_filter rows).total,
        Event.fs FsOp.seekStart] ++
      (r2R failAt times srv_map loc_map server_filter wave_filter rows).events,
      (r2R failAt times srv_map loc_map server_filter wave_filter rows).error⟩
  else if !fsOk failAt
      (r2R failAt times srv_map loc_map server_filter wave_filter rows).st.fsCnt then
    ⟨evsHdr rows.length server_filter wave_filter hdr ++
      (r1R failAt server_filter wave_filter rows).events ++
      [Event.logTotal (r1R failAt server_filter wave_filter rows).total,
        Event.fs FsOp.seekStart] ++
      (r2R failAt times srv_map loc_map server_filter wave_filter rows).events,
      some ioErrorMsg⟩
  else if !fsOk failAt
      ((r2R failAt times srv_map loc_map server_filter wave_filter rows).st.fsCnt + 1)
    then
    ⟨evsHdr rows.length server_filter wave_filter hdr ++
      (r1R failAt server_filter wave_filter rows).events ++
      [Event.logTotal (r1R failAt server_filter wave_filter rows).total,
        Event.fs FsOp.seekStart] ++
      (r2R failAt times srv_map loc_map server_filter wave_filter rows).events ++
      [Event.fs FsOp.closeTmp, Event.progress 100],
      some ioErrorMsg⟩
  else
    ⟨evsHdr rows.length server_filter wave_filter hdr ++
      (r1R failAt server_filter wave_filter rows).events ++
      [Event.logTotal (r1R failAt server_filter wave_filter rows).total,
        Event.fs FsOp.seekStart] ++
      (r2R failAt times srv_map loc_map server_filter wave_filter rows).events ++
      [Event.fs FsOp.closeTmp, Event.progress 100, Event.fs FsOp.replaceFinal,
        Event.logDone] ++
      (if server_filter ≠ [] then
        summaryEvents server_filter
          (r2R failAt times srv_map loc_map server_filter wave_filter rows).st.outb
          (r2R failAt times srv_map loc_map server_filter wave_filter rows).st.inb
      else []), none⟩

/-- File-system operations of an event trace, in order. -/
def fsEvents : List Event → List FsOp
  | [] => []
  | Event.fs op :: rest => op :: fsEvents rest
  | _ :: rest => fsEvents rest

/-- Values passed to the progress callback, in order. -/
def progressValues : List Event → List Nat
  | [] => []
  | Event.progress v :: rest => v :: progressValues rest
  | _ :: rest => progressValues rest

/-- Milestone log lines, in order, as (threshold index, percentage). -/
def milestoneEvents : List Event → List (Nat × Nat)
  | [] => []
  | Event.milestone k p :: rest => (k, p) :: milestoneEvents rest
  | _ :: rest => milestoneEvents rest

/- ==================== event-trace lemmas ==================== -/

theorem fsEvents_append (a b : List Event) :
    fsEvents (a ++ b) = fsEvents a ++ fsEvents b := by
  induction a with
  | nil => rfl
  | cons e rest ih => cases e <;> simp [fsEvents, ih]

theorem progressValues_append (a b : List Event) :
    progressValues (a ++ b) = progressValues a ++ progressValues b := by
  induction a with
  | nil => rfl
  | cons e rest ih => cases e <;> simp [progressValues, ih]

theorem milestoneEvents_append (a b : List Event) :
    milestoneEvents (a ++ b) = milestoneEvents a ++ milestoneEvents b := by
  induction a with
  | nil => rfl
  | cons e rest ih => cases e <;> simp [milestoneEvents, ih]

theorem fsEvents_summaryEvents (sf : List String) (o i : List (String × Nat)) :
    fsEvents (summaryEvents sf o i) = [] := by
  induction sf with
  | nil => rfl
  | cons s rest ih =>
    simp only [summaryEvents, List.map_cons] at ih ⊢
    exact ih

theorem progressValues_summaryEvents (sf : List String) (o i : List (String × Nat)) :
    progressValues (summaryEvents sf o i) = [] := by
  induction sf with
  | nil => rfl
  | cons s rest ih =>
    simp only [summaryEvents, List.map_cons] at ih ⊢
    exact ih

theorem milestoneEvents_summaryEvents (sf : List String) (o i : List (String × Nat)) :
    milestoneEvents (summaryEvents sf o i) = [] := by
  induction sf with
  | nil => rfl
  | cons s rest ih =>
    simp only [summaryEvents, List.map_cons] at ih ⊢
    exact ih

theorem stepEvents_processed (st3 : St2) (total : Nat) (now : Int) :
    (stepEvents st3 total now).2.processed = st3.processed + 1 := by
  simp only [stepEvents]

theorem stepEvents_fsCnt (st3 : St2) (total : Nat) (now : Int) :
    (stepEvents st3 total now).2.fsCnt = st3.fsCnt := by
  simp only [stepEvents]

theorem stepEvents_nextStep_ge (st3 : St2) (total : Nat) (now : Int) :
    st3.nextStep ≤ (stepEvents st3 total now).2.nextStep := by
  simp only [stepEvents]
  split
  · exact Nat.le_succ _
  · exact Nat.le_refl _

theorem stepEvents_nextStep_le (st3 : St2) (total : Nat) (now : Int)
    (h : st3.nextStep ≤ THRESHOLDS.length) :
    (stepEvents st3 total now).2.nextStep ≤ THRESHOLDS.length := by
  simp only [stepEvents]
  split
  case isTrue hf => exact hf.1
  case isFalse hf => exact h

theorem stepEvents_fsEvents (st3 : St2) (total : Nat) (now : Int) :
    fsEvents (stepEvents st3 total now).1 = [] := by
  simp only [stepEvents]
  split_ifs <;> simp [fsEvents, fsEvents_append]

theorem stepEvents_progressValues (st3 : St2) (total : Nat) (now : Int) :
    progressValues (stepEvents st3 total now).1 = [] ∨
    progressValues (stepEvents st3 total now).1 = [pctOf (st3.processed + 1) total] := by
  simp only [stepEvents]
  split_ifs <;> simp [progressValues, progressValues_append]

theorem milestoneEvents_ite_progress (c : Prop) [Decidable c] (v : Nat) :
    milestoneEvents (if c then [Event.progress v] else []) = [] := by
  split <;> rfl

theorem milestoneEvents_ite_rowLog (c : Prop) [Decidable c] (a b d : Nat) :
    milestoneEvents (if c then [Event.rowLog a b d] else []) = [] := by
  split <;> rfl

theorem progressValues_ite_milestone (c : Prop) [Decidable c] (k p : Nat) :
    progressValues (if c then [Event.milestone k p] else []) = [] := by
  split <;> rfl

theorem progressValues_ite_rowLog (c : Prop) [Decidable c] (a b d : Nat) :
    progressValues (if c then [Event.rowLog a b d] else []) = [] := by
  split <;> rfl

theorem stepEvents_milestones (st3 : St2) (total : Nat) (now : Int) :
    (milestoneEvents (stepEvents st3 total now).1).map Prod.fst
      = List.range' st3.nextStep ((stepEvents st3 total now).2.nextStep - st3.nextStep) ∧
    ∀ kp ∈ milestoneEvents (stepEvents st3 total now).1,
      THRESHOLDS.getD kp.1 0 ≤ kp.2 ∧ kp.1 < THRESHOLDS.length := by
  simp only [stepEvents]
  by_cases hf : st3.nextStep < THRESHOLDS.length ∧
      THRESHOLDS.getD st3.nextStep 0 ≤ pctOf (st3.processed + 1) total
  · refine ⟨?_, ?_⟩
    · simp only [if_pos hf, milestoneEvents_append, milestoneEvents,
        milestoneEvents_ite_progress, milestoneEvents_ite_rowLog, List.append_nil,
        List.nil_append, List.append_eq, List.map_cons, List.map_nil,
        Nat.add_sub_cancel_left, List.range'_one]
    · intro kp hkp
      simp only [if_pos hf, milestoneEvents_append, milestoneEvents,
        milestoneEvents_ite_progress, milestoneEvents_ite_rowLog, List.append_nil,
        List.nil_append, List.append_eq, List.mem_singleton] at hkp
      subst hkp
      exact ⟨hf.2, hf.1⟩
  · refine ⟨?_, ?_⟩
    · simp only [if_neg hf, milestoneEvents_append, milestoneEvents,
        milestoneEvents_ite_progress, milestoneEvents_ite_rowLog, List.append_nil,
        List.nil_append, List.append_eq, List.map_nil, Nat.sub_self, List.range']
    · intro kp hkp
      simp only [if_neg hf, milestoneEvents_append, milestoneEvents,
        milestoneEvents_ite_progress, milestoneEvents_ite_rowLog, List.append_nil,
        List.nil_append, List.append_eq] at hkp
      cases hkp

theorem fsEvents_ite_logServers (c : Prop) [Decidable c] (l : List String) :
    fsEvents (if c then [Event.logServers l] else []) = [] := by
  split <;> rfl

theorem fsEvents_ite_logWave (c : Prop) [Decidable c] (w : String) :
    fsEvents (if c then [Event.logWave w] else []) = [] := by
  split <;> rfl

theorem fsEvents_ite_summary (c : Prop) [Decidable c] (sf : List String)
    (o i : List (String × Nat)) :
    fsEvents (if c then summaryEvents sf o i else []) = [] := by
  split
  · exact fsEvents_summaryEvents sf o i
  · rfl

theorem progressValues_ite_logServers (c : Prop) [Decidable c] (l : List String) :
    progressValues (if c then [Event.logServers l] else []) = [] := by
  split <;> rfl

theorem progressValues_ite_logWave (c : Prop) [Decidable c] (w : String) :
    progressValues (if c then [Event.logWave w] else []) = [] := by
  split <;> rfl

theorem progressValues_ite_summary (c : Prop) [Decidable c] (sf : List String)
    (o i : List (String × Nat)) :
    progressValues (if c then summaryEvents sf o i else []) = [] := by
  split
  · exact progressValues_summaryEvents sf o i
  · rfl

theorem milestoneEvents_ite_logServers (c : Prop) [Decidable c] (l : List String) :
    milestoneEvents (if c then [Event.logServers l] else []) = [] := by
  split <;> rfl

theorem milestoneEvents_ite_logWave (c : Prop) [Decidable c] (w : String) :
    milestoneEvents (if c then [Event.logWave w] else []) = [] := by
  split <;> rfl

theorem milestoneEvents_ite_summary (c : Prop) [Decidable c] (sf : List String)
    (o i : List (String × Nat)) :
    milestoneEvents (if c then summaryEvents sf o i else []) = [] := by
  split
  · exact milestoneEvents_summaryEvents sf o i
  · rfl

/- ==================== pass1 lemmas ==================== -/

theorem pass1_events_readRow (failAt : Option Nat) (sf : List String) (wf : String) :
    ∀ rows cnt acc, ∀ e ∈ (pass1 failAt sf wf rows cnt acc).events,
      e = Event.fs FsOp.readRow := by
  intro rows
  induction rows with
  | nil => intro cnt acc e he; cases he
  | cons row rest ih =>
    intro cnt acc e he
    cases hf : fsOk failAt cnt
    · simp [pass1, hf] at he
    · simp only [pass1, hf, Bool.not_true, Bool.false_eq_true, if_false] at he
      rcases List.mem_cons.mp he with h | h
      · exact h
      · exact ih (cnt + 1) _ e h

theorem progressValues_eq_nil_of_readRow (evs : List Event)
    (h : ∀ e ∈ evs, e = Event.fs FsOp.readRow) : progressValues evs = [] := by
  induction evs with
  | nil => rfl
  | cons e rest ih =>
    rw [h e (List.mem_cons_self _ _)]
    exact ih (fun e he => h e (List.mem_cons_of_mem _ he))

theorem milestoneEvents_eq_nil_of_readRow (evs : List Event)
    (h : ∀ e ∈ evs, e = Event.fs FsOp.readRow) : milestoneEvents evs = [] := by
  induction evs with
  | nil => rfl
  | cons e rest ih =>
    rw [h e (List.mem_cons_self _ _)]
    exact ih (fun e he => h e (List.mem_cons_of_mem _ he))

theorem replace_not_mem_of_readRow (evs : List Event)
    (h : ∀ e ∈ evs, e = Event.fs FsOp.readRow) :
    FsOp.replaceFinal ∉ fsEvents evs := by
  induction evs with
  | nil => intro hc; cases hc
  | cons e rest ih =>
    rw [h e (List.mem_cons_self _ _)]
    intro hc
    rw [show fsEvents (Event.fs FsOp.readRow :: rest) = FsOp.readRow :: fsEvents rest
      from rfl] at hc
    rcases List.mem_cons.mp hc with h' | h'
    · cases h'
    · exact ih (fun e he => h e (List.mem_cons_of_mem _ he)) h'

/-- Number of rows that pass the filter, as computed by the counting pass. -/
def countSurv (sf : List String) (wf : String) (rows : List Row) : Nat :=
  (rows.filter (fun row => should_include_row row wf sf FILTER_COLUMNS CASE_SENSITIVE)).length

theorem countSurv_cons (sf : List String) (wf : String) (row : Row) (rest : List Row) :
    countSurv sf wf (row :: rest) =
      if should_include_row row wf sf FILTER_COLUMNS CASE_SENSITIVE then
        countSurv sf wf rest + 1
      else countSurv sf wf rest := by
  cases hi : should_include_row row wf sf FILTER_COLUMNS CASE_SENSITIVE <;>
    simp [countSurv, List.filter_cons, hi]

theorem pass1_total (failAt : Option Nat) (sf : List String) (wf : String) :
    ∀ rows cnt acc, (pass1 failAt sf wf rows cnt acc).error = none →
      (pass1 failAt sf wf rows cnt acc).total = acc + countSurv sf wf rows := by
  intro rows
  induction rows with
  | nil => intro cnt acc _; simp [pass1, countSurv]
  | cons row rest ih =>
    intro cnt acc herr
    cases hf : fsOk failAt cnt
    · rw [show (pass1 failAt sf wf (row :: rest) cnt acc).error
        = (if !fsOk failAt cnt then (⟨[], cnt, acc, some ioErrorMsg⟩ : Pass1Out)
          else
            let r := pass1 failAt sf wf rest (cnt + 1)
              (if should_include_row row wf sf FILTER_COLUMNS CASE_SENSITIVE
                then acc + 1 else acc)
            ⟨Event.fs FsOp.readRow :: r.events, r.fsCnt, r.total, r.error⟩).error
        from rfl, hf] at herr
      simp at herr
    · simp only [pass1, hf, Bool.not_true, Bool.false_eq_true, if_false] at herr ⊢
      rw [countSurv_cons]
      cases hi : should_include_row row wf sf FILTER_COLUMNS CASE_SENSITIVE
      · simp only [hi, if_false] at herr ⊢
        exact ih (cnt + 1) acc herr
      · simp only [hi, if_true] at herr ⊢
        rw [ih (cnt + 1) (acc + 1) herr]
        omega

/- ==================== pass2 lemmas ==================== -/

theorem pctOf_mono (p q total : Nat) (h : p ≤ q) : pctOf p total ≤ pctOf q total := by
  unfold pctOf
  split
  · exact Nat.le_refl 0
  · exact Nat.div_le_div_right (Nat.mul_le_mul_right 100 h)

theorem pctOf_le_100 (p total : Nat) (h : p ≤ total) : pctOf p total ≤ 100 := by
  unfold pctOf
  split
  · exact Nat.le_of_lt (by omega)
  case isFalse h0 =>
    calc p * 100 / total ≤ total * 100 / total :=
          Nat.div_le_div_right (Nat.mul_le_mul_right 100 h)
      _ = 100 := Nat.mul_div_cancel_left 100 (Nat.pos_of_ne_zero h0)

theorem pass2_no_replace (failAt : Option Nat) (times : Nat → Int)
    (svcIdx : List (String × String)) (subIdx : List (Net × String))
    (sf : List String) (wf : String) (total : Nat) :
    ∀ rows st, FsOp.replaceFinal ∉
      fsEvents (pass2 failAt times svcIdx subIdx sf wf total rows st).events := by
  intro rows
  induction rows with
  | nil => intro st hc; cases hc
  | cons row rest ih =>
    intro st
    cases hf : fsOk failAt st.fsCnt
    · simp [pass2, hf, fsEvents]
    · simp only [pass2, hf, Bool.not_true, Bool.false_eq_true, if_false]
      cases hi : should_include_row row wf sf FILTER_COLUMNS CASE_SENSITIVE
      · simp only [hi, Bool.not_false, if_true]
        intro hc
        rw [show fsEvents (Event.fs FsOp.readRow ::
            (pass2 failAt times svcIdx subIdx sf wf total rest
              { st with fsCnt := st.fsCnt + 1 }).events)
          = FsOp.readRow :: fsEvents (pass2 failAt times svcIdx subIdx sf wf total rest
              { st with fsCnt := st.fsCnt + 1 }).events from rfl] at hc
        rcases List.mem_cons.mp hc with h' | h'
        · cases h'
        · exact ih _ h'
      · simp only [hi, Bool.not_true, Bool.false_eq_true, if_false]
        cases hf2 : fsOk failAt (st.fsCnt + 1)
        · simp [hf2, fsEvents]
        · simp only [hf2, Bool.not_true, Bool.false_eq_true, if_false]
          intro hc
          simp only [fsEvents, fsEvents_append, stepEvents_fsCnt, List.nil_append] at hc
          rw [stepEvents_fsEvents] at hc
          rcases List.mem_cons.mp hc with h' | h'
          · cases h'
          · rcases List.mem_cons.mp h' with h'' | h''
            · cases h''
            · rw [List.nil_append] at h''
              exact ih _ h''


theorem midState_processed (st : St2) (sf : List String) (row : Row) :
    (midState st sf row).processed = st.processed := by
  simp [midState]

theorem midState_nextStep (st : St2) (sf : List String) (row : Row) :
    (midState st sf row).nextStep = st.nextStep := by
  simp [midState]

theorem pass2_progress (failAt : Option Nat) (times : Nat → Int)
    (svcIdx : List (String × String)) (subIdx : List (Net × String))
    (sf : List String) (wf : String) (total : Nat) :
    ∀ rows st, st.processed + countSurv sf wf rows = total →
      (∀ v ∈ progressValues
          (pass2 failAt times svcIdx subIdx sf wf total rows st).events,
        pctOf st.processed total ≤ v ∧ v ≤ 100) ∧
      List.Chain' (fun a b => a ≤ b)
        (progressValues (pass2 failAt times svcIdx subIdx sf wf total rows st).events) := by
  intro rows
  induction rows with
  | nil =>
    intro st _
    constructor
    · intro v hv; cases hv
    · exact List.chain'_nil
  | cons row rest ih =>
    intro st hinv
    cases hf : fsOk failAt st.fsCnt
    · constructor
      · intro v hv; simp [pass2, hf, progressValues] at hv
      · simp [pass2, hf, progressValues]
    · simp only [pass2, hf, Bool.not_true, Bool.false_eq_true, if_false]
      cases hi : should_include_row row wf sf FILTER_COLUMNS CASE_SENSITIVE
      · simp only [hi, Bool.not_false, if_true]
        have hinv' : ({ st with fsCnt := st.fsCnt + 1 } : St2).processed
            + countSurv sf wf rest = total := by
          rw [countSurv_cons, hi] at hinv
          simpa using hinv
        simpa only [progressValues] using ih { st with fsCnt := st.fsCnt + 1 } hinv'
      · simp only [hi, Bool.not_true, Bool.false_eq_true, if_false]
        cases hf2 : fsOk failAt (st.fsCnt + 1)
        · constructor
          · intro v hv; simp [hf2, progressValues] at hv
          · simp [hf2, progressValues]
        · simp only [hf2, Bool.not_true, Bool.false_eq_true, if_false]
          have hcount : st.processed + 1 + countSurv sf wf rest = total := by
            rw [countSurv_cons, hi] at hinv
            simp at hinv
            omega
          have hinv' : (stepEvents (midState st sf row) total
              (times st.processed)).2.processed + countSurv sf wf rest = total := by
            rw [stepEvents_processed, midState_processed]
            exact hcount
          obtain ⟨ihA, ihB⟩ := ih (stepEvents (midState st sf row) total
            (times st.processed)).2 hinv'
          have hmid : pctOf (st.processed + 1) total
              = pctOf (stepEvents (midState st sf row) total
                (times st.processed)).2.processed total := by
            rw [stepEvents_processed, midState_processed]
          have hlo : pctOf st.processed total ≤ pctOf (st.processed + 1) total :=
            pctOf_mono _ _ _ (Nat.le_succ _)
          have hub : pctOf (st.processed + 1) total ≤ 100 :=
            pctOf_le_100 _ _ (by omega)
          have hes := stepEvents_progressValues (midState st sf row) total
            (times st.processed)
          rw [midState_processed] at hes
          simp only [progressValues, progressValues_append]
          constructor
          · intro v hv
            rcases List.mem_append.mp hv with h | h
            · rcases hes with he | he <;> rw [he] at h
              · cases h
              · rw [List.mem_singleton.mp h]
                exact ⟨hlo, hub⟩
            · obtain ⟨h1, h2⟩ := ihA v h
              rw [← hmid] at h1
              exact ⟨Nat.le_trans hlo h1, h2⟩
          · rcases hes with he | he <;> rw [he]
            · simpa using ihB
            · rw [List.singleton_append]
              refine List.chain'_cons'.mpr ⟨?_, ihB⟩
              intro y hy
              have hmem : y ∈ progressValues (pass2 failAt times svcIdx subIdx sf wf
                  total rest (stepEvents (midState st sf row) total
                    (times st.processed)).2).events :=
                List.mem_of_mem_head? hy
              have := (ihA y hmem).1
              rw [← hmid] at this
              exact this

theorem range'_glue (a b c : Nat) (hab : a ≤ b) (hbc : b ≤ c) :
    List.range' a (b - a) ++ List.range' b (c - b) = List.range' a (c - a) := by
  have h1 : a + (b - a) = b := by omega
  have h2 : (c - b) + (b - a) = c - a := by omega
  calc List.range' a (b - a) ++ List.range' b (c - b)
      = List.range' a (b - a) ++ List.range' (a + (b - a)) (c - b) := by rw [h1]
    _ = List.range' a ((c - b) + (b - a)) := List.range'_append_1 a (b - a) (c - b)
    _ = List.range' a (c - a) := by rw [h2]

theorem pass2_milestones (failAt : Option Nat) (times : Nat → Int)
    (svcIdx : List (String × String)) (subIdx : List (Net × String))
    (sf : List String) (wf : String) (total : Nat) :
    ∀ rows st,
      (milestoneEvents (pass2 failAt times svcIdx subIdx sf wf total rows st).events).map
          Prod.fst
        = List.range' st.nextStep
            ((pass2 failAt times svcIdx subIdx sf wf total rows st).st.nextStep
              - st.nextStep) ∧
      st.nextStep ≤ (pass2 failAt times svcIdx subIdx sf wf total rows st).st.nextStep ∧
      (st.nextStep ≤ THRESHOLDS.length →
        (pass2 failAt times svcIdx subIdx sf wf total rows st).st.nextStep
          ≤ THRESHOLDS.length) ∧
      ∀ kp ∈ milestoneEvents (pass2 failAt times svcIdx subIdx sf wf total rows st).events,
        THRESHOLDS.getD kp.1 0 ≤ kp.2 ∧ kp.1 < THRESHOLDS.length := by
  intro rows
  induction rows with
  | nil =>
    intro st
    refine ⟨by simp [pass2, milestoneEvents, List.range'], Nat.le_refl _, fun h => h, ?_⟩
    intro kp hkp
    simp [pass2, milestoneEvents] at hkp
  | cons row rest ih =>
    intro st
    cases hf : fsOk failAt st.fsCnt
    · have hred : pass2 failAt times svcIdx subIdx sf wf total (row :: rest) st
          = ⟨[], st, some ioErrorMsg⟩ := by
        simp [pass2, hf]
      rw [hred]
      refine ⟨by simp [milestoneEvents, List.range'], Nat.le_refl _, fun h => h, ?_⟩
      intro kp hkp
      simp [milestoneEvents] at hkp
    · simp only [pass2, hf, Bool.not_true, Bool.false_eq_true, if_false]
      cases hi : should_include_row row wf sf FILTER_COLUMNS CASE_SENSITIVE
      · simp only [hi, Bool.not_false, if_true]
        simpa only [milestoneEvents] using ih { st with fsCnt := st.fsCnt + 1 }
      · simp only [hi, Bool.not_true, Bool.false_eq_true, if_false]
        cases hf2 : fsOk failAt (st.fsCnt + 1)
        · simp only [hf2, Bool.not_false, if_true]
          refine ⟨by simp [milestoneEvents, List.range'], Nat.le_refl _, fun h => h, ?_⟩
          intro kp hkp
          simp [milestoneEvents] at hkp
        · simp only [hf2, Bool.not_true, Bool.false_eq_true, if_false]
          obtain ⟨ih1, ih2, ih3, ih4⟩ := ih (stepEvents (midState st sf row) total
            (times st.processed)).2
          obtain ⟨hs1, hs2⟩ := stepEvents_milestones (midState st sf row) total
            (times st.processed)
          have hge := stepEvents_nextStep_ge (midState st sf row) total
            (times st.processed)
          rw [midState_nextStep] at hs1 hge
          simp only [milestoneEvents, milestoneEvents_append, List.map_append]
          refine ⟨?_, ?_, ?_, ?_⟩
          · rw [hs1, ih1]
            exact range'_glue _ _ _ hge ih2
          · exact Nat.le_trans hge ih2
          · intro h
            exact ih3 (by
              rw [← midState_nextStep st sf row] at h
              exact stepEvents_nextStep_le _ _ _ h)
          · intro kp hkp
            rcases List.mem_append.mp hkp with h | h
            · exact hs2 kp h
            · exact ih4 kp h

theorem pass1_no_replace (failAt : Option Nat) (sf : List String) (wf : String)
    (rows : List Row) (cnt acc : Nat) :
    FsOp.replaceFinal ∉ fsEvents (pass1 failAt sf wf rows cnt acc).events :=
  replace_not_mem_of_readRow _ (pass1_events_readRow failAt sf wf rows cnt acc)

theorem noReplace_append {a b : List Event}
    (ha : FsOp.replaceFinal ∉ fsEvents a) (hb : FsOp.replaceFinal ∉ fsEvents b) :
    FsOp.replaceFinal ∉ fsEvents (a ++ b) := by
  rw [fsEvents_append]
  intro hc
  rcases List.mem_append.mp hc with h | h
  · exact ha h
  · exact hb h

theorem noReplace_evsPre (n : Nat) (sf : List String) (wf : String) :
    FsOp.replaceFinal ∉ fsEvents (evsPre n sf wf) := by
  intro hc
  simp only [evsPre, fsEvents_append, fsEvents_ite_logServers, fsEvents_ite_logWave,
    fsEvents, List.append_nil, List.nil_append, List.append_eq, List.mem_append,
    List.mem_cons, List.not_mem_nil, or_false, false_or, reduceCtorEq] at hc

theorem noReplace_evsTmp (n : Nat) (sf : List String) (wf : String) :
    FsOp.replaceFinal ∉ fsEvents (evsTmp n sf wf) :=
  noReplace_append (noReplace_evsPre n sf wf) (by simp [fsEvents])

theorem noReplace_evsHdr (n : Nat) (sf : List String) (wf : String) (hdr : List String) :
    FsOp.replaceFinal ∉ fsEvents (evsHdr n sf wf hdr) :=
  noReplace_append (noReplace_evsTmp n sf wf) (by simp [fsEvents])

theorem noReplace_r1R (failAt : Option Nat) (sf : List String) (wf : String)
    (rows : List Row) :
    FsOp.replaceFinal ∉ fsEvents (r1R failAt sf wf rows).events :=
  replace_not_mem_of_readRow _ (pass1_events_readRow failAt sf wf rows 4 0)

theorem noReplace_r2R (failAt : Option Nat) (times : Nat → Int)
    (srv_map loc_map : List (String × List String)) (sf : List String) (wf : String)
    (rows : List Row) :
    FsOp.replaceFinal ∉ fsEvents (r2R failAt times srv_map loc_map sf wf rows).events :=
  pass2_no_replace _ _ _ _ _ _ _ _ _

theorem noReplace_blk_openSrc :
    FsOp.replaceFinal ∉ fsEvents [Event.fs FsOp.openSrc] := by
  simp [fsEvents]

theorem noReplace_blk_logTotal (t : Nat) :
    FsOp.replaceFinal ∉ fsEvents [Event.logTotal t] := by
  simp [fsEvents]

theorem noReplace_blk_totalSeek (t : Nat) :
    FsOp.replaceFinal ∉ fsEvents [Event.logTotal t, Event.fs FsOp.seekStart] := by
  simp [fsEvents]

theorem noReplace_blk_closeProg :
    FsOp.replaceFinal ∉ fsEvents [Event.fs FsOp.closeTmp, Event.progress 100] := by
  simp [fsEvents]

theorem fsEvents_ite_logServers2 (c : Prop) [Decidable c] (l : List String) :
    fsEvents (if c then [] else [Event.logServers l]) = [] := by
  split <;> rfl

theorem fsEvents_ite_logWave2 (c : Prop) [Decidable c] (w : String) :
    fsEvents (if c then [] else [Event.logWave w]) = [] := by
  split <;> rfl

theorem fsEvents_ite_summary2 (c : Prop) [Decidable c] (sf : List String)
    (o i : List (String × Nat)) :
    fsEvents (if c then [] else summaryEvents sf o i) = [] := by
  split
  · rfl
  · exact fsEvents_summaryEvents sf o i

/-- C5: atomic publication. In every run of `run_user_python_code`, if the
run fails (missing required columns, or an I/O failure injected at any
file-system operation before the final rename), no `replaceFinal`
operation is ever performed, so the destination output path is never
created or modified (the rename is the only operation addressing it); and
in a successful run the `os.replace` rename is the last file-system
operation. -/
theorem C5_atomic_publication (hdr : List String) (rows : List Row)
    (server_filter : List String) (wave_filter : String)
    (srv_map loc_map : List (String × List String)) (times : Nat → Int)
    (failAt : Option Nat) :
    ((run_user_python_code hdr rows server_filter wave_filter srv_map loc_map times
        failAt).error.isSome →
      FsOp.replaceFinal ∉ fsEvents (run_user_python_code hdr rows server_filter
        wave_filter srv_map loc_map times failAt).events) ∧
    ((run_user_python_code hdr rows server_filter wave_filter srv_map loc_map times
        failAt).error = none →
      (fsEvents (run_user_python_code hdr rows server_filter wave_filter srv_map
        loc_map times failAt).events).getLast? = some FsOp.replaceFinal) := by
  unfold run_user_python_code
  by_cases h0 : (!fsOk failAt 0) = true
  · rw [if_pos h0]
    exact ⟨fun _ hc => absurd hc (List.not_mem_nil _), fun herr => Option.noConfusion herr⟩
  rw [if_neg h0]
  by_cases h1 : (!fsOk failAt 1) = true
  · rw [if_pos h1]
    exact ⟨fun _ => noReplace_evsPre rows.length server_filter wave_filter,
      fun herr => Option.noConfusion herr⟩
  rw [if_neg h1]
  by_cases h2 : (!fsOk failAt 2) = true
  · rw [if_pos h2]
    exact ⟨fun _ => noReplace_append
        (noReplace_evsPre rows.length server_filter wave_filter) noReplace_blk_openSrc,
      fun herr => Option.noConfusion herr⟩
  rw [if_neg h2]
  by_cases hm : missingCols hdr ≠ []
  · rw [if_pos hm]
    exact ⟨fun _ => noReplace_evsTmp rows.length server_filter wave_filter,
      fun herr => Option.noConfusion herr⟩
  rw [if_neg hm]
  by_cases hn : server_filter ≠ [] ∧
      ((!hdr.contains "src_name") = true ∨ (!hdr.contains "dest_name") = true)
  · rw [if_pos hn]
    exact ⟨fun _ => noReplace_evsTmp rows.length server_filter wave_filter,
      fun herr => Option.noConfusion herr⟩
  rw [if_neg hn]
  by_cases h3 : (!fsOk failAt 3) = true
  · rw [if_pos h3]
    exact ⟨fun _ => noReplace_evsTmp rows.length server_filter wave_filter,
      fun herr => Option.noConfusion herr⟩
  rw [if_neg h3]
  by_cases he1 : (r1R failAt server_filter wave_filter rows).error.isSome = true
  · rw [if_pos he1]
    refine ⟨fun _ => noReplace_append
        (noReplace_evsHdr rows.length server_filter wave_filter hdr)
        (noReplace_r1R failAt server_filter wave_filter rows),
      fun herr => ?_⟩
    have h' : (r1R failAt server_filter wave_filter rows).error = none := herr
    rw [h'] at he1
    exact Bool.noConfusion he1
  rw [if_neg he1]
  by_cases hsk : (!fsOk failAt (r1R failAt server_filter wave_filter rows).fsCnt) = true
  · rw [if_pos hsk]
    exact ⟨fun _ => noReplace_append
        (noReplace_append (noReplace_evsHdr rows.length server_filter wave_filter hdr)
          (noReplace_r1R failAt server_filter wave_filter rows))
        (noReplace_blk_logTotal (r1R failAt server_filter wave_filter rows).total),
      fun herr => Option.noConfusion herr⟩
  rw [if_neg hsk]
  by_cases he2 : (r2R failAt times srv_map loc_map server_filter wave_filter
      rows).error.isSome = true
  · rw [if_pos he2]
    refine ⟨fun _ => noReplace_append
        (noReplace_append
          (noReplace_append (noReplace_evsHdr rows.length server_filter wave_filter hdr)
            (noReplace_r1R failAt server_filter wave_filter rows))
          (noReplace_blk_totalSeek (r1R failAt server_filter wave_filter rows).total))
        (noReplace_r2R failAt times srv_map loc_map server_filter wave_filter rows),
      fun herr => ?_⟩
    have h' : (r2R failAt times srv_map loc_map server_filter wave_filter rows).error
        = none := herr
    rw [h'] at he2
    exact Bool.noConfusion he2
  rw [if_neg he2]
  by_cases hcl : (!fsOk failAt
      (r2R failAt times srv_map loc_map server_filter wave_filter rows).st.fsCnt) = true
  · rw [if_pos hcl]
    exact ⟨fun _ => noReplace_append
        (noReplace_append
          (noReplace_append (noReplace_evsHdr rows.length server_filter wave_filter hdr)
            (noReplace_r1R failAt server_filter wave_filter rows))
          (noReplace_blk_totalSeek (r1R failAt server_filter wave_filter rows).total))
        (noReplace_r2R failAt times srv_map loc_map server_filter wave_filter rows),
      fun herr => Option.noConfusion herr⟩
  rw [if_neg hcl]
  by_cases hrp : (!fsOk failAt
      ((r2R failAt times srv_map loc_map server_filter wave_filter rows).st.fsCnt + 1))
      = true
  · rw [if_pos hrp]
    exact ⟨fun _ => noReplace_append
        (noReplace_append
          (noReplace_append
            (noReplace_append (noReplace_evsHdr rows.length server_filter wave_filter hdr)
              (noReplace_r1R failAt server_filter wave_filter rows))
            (noReplace_blk_totalSeek (r1R failAt server_filter wave_filter rows).total))
          (noReplace_r2R failAt times srv_map loc_map server_filter wave_filter rows))
        noReplace_blk_closeProg,
      fun herr => Option.noConfusion herr⟩
  rw [if_neg hrp]
  refine ⟨fun hs => absurd hs (by simp), fun _ => ?_⟩
  simp [fsEvents_append, fsEvents, fsEvents_ite_logServers2, fsEvents_ite_logWave2,
    fsEvents_ite_summary2, List.getLast?_cons, List.getLast?_append]

/- ==================== C6/C7 support lemmas ==================== -/

theorem progressValues_evsPre (n : Nat) (sf : List String) (wf : String) :
    progressValues (evsPre n sf wf) = [] := by
  simp only [evsPre, progressValues_append, progressValues_ite_logServers,
    progressValues_ite_logWave, progressValues, List.append_nil, List.nil_append,
    List.append_eq]

theorem progressValues_evsTmp (n : Nat) (sf : List String) (wf : String) :
    progressValues (evsTmp n sf wf) = [] := by
  simp only [evsTmp, evsPre, progressValues_append, progressValues_ite_logServers,
    progressValues_ite_logWave, progressValues, List.append_nil, List.nil_append,
    List.append_eq]

theorem progressValues_evsHdr (n : Nat) (sf : List String) (wf : String)
    (hdr : List String) :
    progressValues (evsHdr n sf wf hdr) = [] := by
  simp only [evsHdr, evsTmp, evsPre, progressValues_append,
    progressValues_ite_logServers, progressValues_ite_logWave, progressValues,
    List.append_nil, List.nil_append, List.append_eq]

theorem progressValues_r1R (failAt : Option Nat) (sf : List String) (wf : String)
    (rows : List Row) : progressValues (r1R failAt sf wf rows).events = [] :=
  progressValues_eq_nil_of_readRow _ (pass1_events_readRow failAt sf wf rows 4 0)

theorem milestoneEvents_evsPre (n : Nat) (sf : List String) (wf : String) :
    milestoneEvents (evsPre n sf wf) = [] := by
  simp only [evsPre, milestoneEvents_append, milestoneEvents_ite_logServers,
    milestoneEvents_ite_logWave, milestoneEvents, List.append_nil, List.nil_append,
    List.append_eq]

theorem milestoneEvents_evsTmp (n : Nat) (sf : List String) (wf : String) :
    milestoneEvents (evsTmp n sf wf) = [] := by
  simp only [evsTmp, evsPre, milestoneEvents_append, milestoneEvents_ite_logServers,
    milestoneEvents_ite_logWave, milestoneEvents, List.append_nil, List.nil_append,
    List.append_eq]

theorem milestoneEvents_evsHdr (n : Nat) (sf : List String) (wf : String)
    (hdr : List String) :
    milestoneEvents (evsHdr n sf wf hdr) = [] := by
  simp only [evsHdr, evsTmp, evsPre, milestoneEvents_append,
    milestoneEvents_ite_logServers, milestoneEvents_ite_logWave, milestoneEvents,
    List.append_nil, List.nil_append, List.append_eq]

theorem milestoneEvents_r1R (failAt : Option Nat) (sf : List String) (wf : String)
    (rows : List Row) : milestoneEvents (r1R failAt sf wf rows).events = [] :=
  milestoneEvents_eq_nil_of_readRow _ (pass1_events_readRow failAt sf wf rows 4 0)

theorem progressValues_ite_summary2 (c : Prop) [Decidable c] (sf : List String)
    (o i : List (String × Nat)) :
    progressValues (if c then [] else summaryEvents sf o i) = [] := by
  split
  · rfl
  · exact progressValues_summaryEvents sf o i

theorem milestoneEvents_ite_summary2 (c : Prop) [Decidable c] (sf : List String)
    (o i : List (String × Nat)) :
    milestoneEvents (if c then [] else summaryEvents sf o i) = [] := by
  split
  · rfl
  · exact milestoneEvents_summaryEvents sf o i

theorem r1R_error_none (failAt : Option Nat) (sf : List String) (wf : String)
    (rows : List Row) (h : ¬(r1R failAt sf wf rows).error.isSome = true) :
    (r1R failAt sf wf rows).error = none := by
  cases herr : (r1R failAt sf wf rows).error
  · rfl
  · rw [herr] at h
    exact absurd rfl h

theorem r2R_progress (failAt : Option Nat) (times : Nat → Int)
    (srv_map loc_map : List (String × List String)) (sf : List String) (wf : String)
    (rows : List Row) (h : (r1R failAt sf wf rows).error = none) :
    (∀ v ∈ progressValues (r2R failAt times srv_map loc_map sf wf rows).events,
      v ≤ 100) ∧
    List.Chain' (fun a b => a ≤ b)
      (progressValues (r2R failAt times srv_map loc_map sf wf rows).events) := by
  have htot : (r1R failAt sf wf rows).total = 0 + countSurv sf wf rows :=
    pass1_total failAt sf wf rows 4 0 h
  have hinv : (st0 sf ((r1R failAt sf wf rows).fsCnt + 1)).processed
      + countSurv sf wf rows = (r1R failAt sf wf rows).total := by
    show 0 + countSurv sf wf rows = (r1R failAt sf wf rows).total
    omega
  obtain ⟨hb, hc⟩ := pass2_progress failAt times (build_ip_to_service_index srv_map)
    (build_subnet_index loc_map) sf wf (r1R failAt sf wf rows).total rows
    (st0 sf ((r1R failAt sf wf rows).fsCnt + 1)) hinv
  exact ⟨fun v hv => (hb v hv).2, hc⟩

theorem chain_append_100 (P : List Nat) (hb : ∀ v ∈ P, v ≤ 100)
    (hc : List.Chain' (fun a b => a ≤ b) P) :
    (∀ v ∈ P ++ [100], v ≤ 100) ∧
    List.Chain' (fun a b => a ≤ b) (P ++ [100]) := by
  constructor
  · intro v hv
    rcases List.mem_append.mp hv with h | h
    · exact hb v h
    · rw [List.mem_singleton.mp h]
  · refine List.chain'_append.mpr ⟨hc, List.chain'_singleton _, ?_⟩
    intro x hx y hy
    have hx' : x ∈ P := List.mem_of_mem_getLast? hx
    have hy' : y = 100 := by
      have := hy
      simp at this
      omega
    rw [hy']
    exact hb x hx'

theorem r2R_milestones (failAt : Option Nat) (times : Nat → Int)
    (srv_map loc_map : List (String × List String)) (sf : List String) (wf : String)
    (rows : List Row) :
    ∃ m, m ≤ THRESHOLDS.length ∧
      (milestoneEvents (r2R failAt times srv_map loc_map sf wf rows).events).map
        Prod.fst = List.range m ∧
      ∀ kp ∈ milestoneEvents (r2R failAt times srv_map loc_map sf wf rows).events,
        THRESHOLDS.getD kp.1 0 ≤ kp.2 ∧ kp.1 < THRESHOLDS.length := by
  obtain ⟨h1, h2, h3, h4⟩ := pass2_milestones failAt times
    (build_ip_to_service_index srv_map) (build_subnet_index loc_map) sf wf
    (r1R failAt sf wf rows).total rows (st0 sf ((r1R failAt sf wf rows).fsCnt + 1))
  refine ⟨_, h3 (Nat.zero_le _), ?_, h4⟩
  rw [List.range_eq_range']
  simpa using h1


/-- C6: progress callback invariant. In every run of `run_user_python_code`
(whose model reads the same row list in both passes, i.e. the input is
unchanged between them), every value passed to the progress callback is a
natural number at most 100, and the sequence of passed values (throttled
updates during processing followed by the final 100 at finalizing) is
monotonically non-decreasing. -/
theorem C6_progress_monotone (hdr : List String) (rows : List Row)
    (server_filter : List String) (wave_filter : String)
    (srv_map loc_map : List (String × List String)) (times : Nat → Int)
    (failAt : Option Nat) :
    (∀ v ∈ progressValues (run_user_python_code hdr rows server_filter wave_filter
      srv_map loc_map times failAt).events, v ≤ 100) ∧
    List.Chain' (fun a b => a ≤ b)
      (progressValues (run_user_python_code hdr rows server_filter wave_filter
        srv_map loc_map times failAt).events) := by
  unfold run_user_python_code
  by_cases h0 : (!fsOk failAt 0) = true
  · rw [if_pos h0]
    exact ⟨fun v hv => absurd hv (List.not_mem_nil _), List.chain'_nil⟩
  rw [if_neg h0]
  by_cases h1 : (!fsOk failAt 1) = true
  · rw [if_pos h1]
    constructor
    · intro v hv
      simp only [progressValues_append, progressValues, progressValues_ite_logServers,
        progressValues_ite_logWave, progressValues_ite_summary,
        progressValues_ite_summary2, progressValues_ite_milestone,
        progressValues_ite_rowLog, progressValues_evsPre, progressValues_evsTmp,
        progressValues_evsHdr, progressValues_r1R, evsPre, evsTmp, evsHdr,
        List.append_eq, List.append_nil, List.nil_append, List.not_mem_nil] at hv
    · simp only [progressValues_append, progressValues, progressValues_ite_logServers,
        progressValues_ite_logWave, progressValues_ite_summary,
        progressValues_ite_summary2, progressValues_ite_milestone,
        progressValues_ite_rowLog, progressValues_evsPre, progressValues_evsTmp,
        progressValues_evsHdr, progressValues_r1R, evsPre, evsTmp, evsHdr,
        List.append_eq, List.append_nil, List.nil_append, List.not_mem_nil]
      exact List.chain'_nil
  rw [if_neg h1]
  by_cases h2 : (!fsOk failAt 2) = true
  · rw [if_pos h2]
    constructor
    · intro v hv
      simp only [progressValues_append, progressValues, progressValues_ite_logServers,
        progressValues_ite_logWave, progressValues_ite_summary,
        progressValues_ite_summary2, progressValues_ite_milestone,
        progressValues_ite_rowLog, progressValues_evsPre, progressValues_evsTmp,
        progressValues_evsHdr, progressValues_r1R, evsPre, evsTmp, evsHdr,
        List.append_eq, List.append_nil, List.nil_append, List.not_mem_nil] at hv
    · simp only [progressValues_append, progressValues, progressValues_ite_logServers,
        progressValues_ite_logWave, progressValues_ite_summary,
        progressValues_ite_summary2, progressValues_ite_milestone,
        progressValues_ite_rowLog, progressValues_evsPre, progressValues_evsTmp,
        progressValues_evsHdr, progressValues_r1R, evsPre, evsTmp, evsHdr,
        List.append_eq, List.append_nil, List.nil_append, List.not_mem_nil]
      exact List.chain'_nil
  rw [if_neg h2]
  by_cases hm : missingCols hdr ≠ []
  · rw [if_pos hm]
    constructor
    · intro v hv
      simp only [progressValues_append, progressValues, progressValues_ite_logServers,
        progressValues_ite_logWave, progressValues_ite_summary,
        progressValues_ite_summary2, progressValues_ite_milestone,
        progressValues_ite_rowLog, progressValues_evsPre, progressValues_evsTmp,
        progressValues_evsHdr, progressValues_r1R, evsPre, evsTmp, evsHdr,
        List.append_eq, List.append_nil, List.nil_append, List.not_mem_nil] at hv
    · simp only [progressValues_append, progressValues, progressValues_ite_logServers,
        progressValues_ite_logWave, progressValues_ite_summary,
        progressValues_ite_summary2, progressValues_ite_milestone,
        progressValues_ite_rowLog, progressValues_evsPre, progressValues_evsTmp,
        progressValues_evsHdr, progressValues_r1R, evsPre, evsTmp, evsHdr,
        List.append_eq, List.append_nil, List.nil_append, List.not_mem_nil]
      exact List.chain'_nil
  rw [if_neg hm]
  by_cases hn : server_filter ≠ [] ∧
      ((!hdr.contains "src_name") = true ∨ (!hdr.contains "dest_name") = true)
  · rw [if_pos hn]
    constructor
    · intro v hv
      simp only [progressValues_append, progressValues, progressValues_ite_logServers,
        progressValues_ite_logWave, progressValues_ite_summary,
        progressValues_ite_summary2, progressValues_ite_milestone,
        progressValues_ite_rowLog, progressValues_evsPre, progressValues_evsTmp,
        progressValues_evsHdr, progressValues_r1R, evsPre, evsTmp, evsHdr,
        List.append_eq, List.append_nil, List.nil_append, List.not_mem_nil] at hv
    · simp only [progressValues_append, progressValues, progressValues_ite_logServers,
        progressValues_ite_logWave, progressValues_ite_summary,
        progressValues_ite_summary2, progressValues_ite_milestone,
        progressValues_ite_rowLog, progressValues_evsPre, progressValues_evsTmp,
        progressValues_evsHdr, progressValues_r1R, evsPre, evsTmp, evsHdr,
        List.append_eq, List.append_nil, List.nil_append, List.not_mem_nil]
      exact List.chain'_nil
  rw [if_neg hn]
  by_cases h3 : (!fsOk failAt 3) = true
  · rw [if_pos h3]
    constructor
    · intro v hv
      simp only [progressValues_append, progressValues, progressValues_ite_logServers,
        progressValues_ite_logWave, progressValues_ite_summary,
        progressValues_ite_summary2, progressValues_ite_milestone,
        progressValues_ite_rowLog, progressValues_evsPre, progressValues_evsTmp,
        progressValues_evsHdr, progressValues_r1R, evsPre, evsTmp, evsHdr,
        List.append_eq, List.append_nil, List.nil_append, List.not_mem_nil] at hv
    · simp only [progressValues_append, progressValues, progressValues_ite_logServers,
        progressValues_ite_logWave, progressValues_ite_summary,
        progressValues_ite_summary2, progressValues_ite_milestone,
        progressValues_ite_rowLog, progressValues_evsPre, progressValues_evsTmp,
        progressValues_evsHdr, progressValues_r1R, evsPre, evsTmp, evsHdr,
        List.append_eq, List.append_nil, List.nil_append, List.not_mem_nil]
      exact List.chain'_nil
  rw [if_neg h3]
  by_cases he1 : (r1R failAt server_filter wave_filter rows).error.isSome = true
  · rw [if_pos he1]
    constructor
    · intro v hv
      simp only [progressValues_append, progressValues, progressValues_ite_logServers,
        progressValues_ite_logWave, progressValues_ite_summary,
        progressValues_ite_summary2, progressValues_ite_milestone,
        progressValues_ite_rowLog, progressValues_evsPre, progressValues_evsTmp,
        progressValues_evsHdr, progressValues_r1R, evsPre, evsTmp, evsHdr,
        List.append_eq, List.append_nil, List.nil_append, List.not_mem_nil] at hv
    · simp only [progressValues_append, progressValues, progressValues_ite_logServers,
        progressValues_ite_logWave, progressValues_ite_summary,
        progressValues_ite_summary2, progressValues_ite_milestone,
        progressValues_ite_rowLog, progressValues_evsPre, progressValues_evsTmp,
        progressValues_evsHdr, progressValues_r1R, evsPre, evsTmp, evsHdr,
        List.append_eq, List.append_nil, List.nil_append, List.not_mem_nil]
      exact List.chain'_nil
  rw [if_neg he1]
  have herr1 : (r1R failAt server_filter wave_filter rows).error = none :=
    r1R_error_none failAt server_filter wave_filter rows he1
  have hr2 := r2R_progress failAt times srv_map loc_map server_filter wave_filter
    rows herr1
  by_cases hsk : (!fsOk failAt (r1R failAt server_filter wave_filter rows).fsCnt) = true
  · rw [if_pos hsk]
    constructor
    · intro v hv
      simp only [progressValues_append, progressValues, progressValues_ite_logServers,
        progressValues_ite_logWave, progressValues_ite_summary,
        progressValues_ite_summary2, progressValues_ite_milestone,
        progressValues_ite_rowLog, progressValues_evsPre, progressValues_evsTmp,
        progressValues_evsHdr, progressValues_r1R, evsPre, evsTmp, evsHdr,
        List.append_eq, List.append_nil, List.nil_append, List.not_mem_nil] at hv
    · simp only [progressValues_append, progressValues, progressValues_ite_logServers,
        progressValues_ite_logWave, progressValues_ite_summary,
        progressValues_ite_summary2, progressValues_ite_milestone,
        progressValues_ite_rowLog, progressValues_evsPre, progressValues_evsTmp,
        progressValues_evsHdr, progressValues_r1R, evsPre, evsTmp, evsHdr,
        List.append_eq, List.append_nil, List.nil_append, List.not_mem_nil]
      exact List.chain'_nil
  rw [if_neg hsk]
  by_cases he2 : (r2R failAt times srv_map loc_map server_filter wave_filter
      rows).error.isSome = true
  · rw [if_pos he2]
    constructor
    · intro v hv
      simp only [progressValues_append, progressValues, progressValues_ite_logServers,
        progressValues_ite_logWave, progressValues_ite_summary,
        progressValues_ite_summary2, progressValues_ite_milestone,
        progressValues_ite_rowLog, progressValues_evsPre, progressValues_evsTmp,
        progressValues_evsHdr, progressValues_r1R, evsPre, evsTmp, evsHdr,
        List.append_eq, List.append_nil, List.nil_append, List.not_mem_nil] at hv
      exact hr2.1 v hv
    · simp only [progressValues_append, progressValues, progressValues_ite_logServers,
        progressValues_ite_logWave, progressValues_ite_summary,
        progressValues_ite_summary2, progressValues_ite_milestone,
        progressValues_ite_rowLog, progressValues_evsPre, progressValues_evsTmp,
        progressValues_evsHdr, progressValues_r1R, evsPre, evsTmp, evsHdr,
        List.append_eq, List.append_nil, List.nil_append, List.not_mem_nil]
      exact hr2.2
  rw [if_neg he2]
  by_cases hcl : (!fsOk failAt
      (r2R failAt times srv_map loc_map server_filter wave_filter rows).st.fsCnt) = true
  · rw [if_pos hcl]
    constructor
    · intro v hv
      simp only [progressValues_append, progressValues, progressValues_ite_logServers,
        progressValues_ite_logWave, progressValues_ite_summary,
        progressValues_ite_summary2, progressValues_ite_milestone,
        progressValues_ite_rowLog, progressValues_evsPre, progressValues_evsTmp,
        progressValues_evsHdr, progressValues_r1R, evsPre, evsTmp, evsHdr,
        List.append_eq, List.append_nil, List.nil_append, List.not_mem_nil] at hv
      exact hr2.1 v hv
    · simp only [progressValues_append, progressValues, progressValues_ite_logServers,
        progressValues_ite_logWave, progressValues_ite_summary,
        progressValues_ite_summary2, progressValues_ite_milestone,
        progressValues_ite_rowLog, progressValues_evsPre, progressValues_evsTmp,
        progressValues_evsHdr, progressValues_r1R, evsPre, evsTmp, evsHdr,
        List.append_eq, List.append_nil, List.nil_append, List.not_mem_nil]
      exact hr2.2
  rw [if_neg hcl]
  have hcomb := chain_append_100 _ hr2.1 hr2.2
  by_cases hrp : (!fsOk failAt
      ((r2R failAt times srv_map loc_map server_filter wave_filter rows).st.fsCnt + 1))
      = true
  · rw [if_pos hrp]
    constructor
    · intro v hv
      simp only [progressValues_append, progressValues, progressValues_ite_logServers,
        progressValues_ite_logWave, progressValues_ite_summary,
        progressValues_ite_summary2, progressValues_ite_milestone,
        progressValues_ite_rowLog, progressValues_evsPre, progressValues_evsTmp,
        progressValues_evsHdr, progressValues_r1R, evsPre, evsTmp, evsHdr,
        List.append_eq, List.append_nil, List.nil_append, List.not_mem_nil] at hv
      exact hcomb.1 v hv
    · simp only [progressValues_append, progressValues, progressValues_ite_logServers,
        progressValues_ite_logWave, progressValues_ite_summary,
        progressValues_ite_summary2, progressValues_ite_milestone,
        progressValues_ite_rowLog, progressValues_evsPre, progressValues_evsTmp,
        progressValues_evsHdr, progressValues_r1R, evsPre, evsTmp, evsHdr,
        List.append_eq, List.append_nil, List.nil_append, List.not_mem_nil]
      exact hcomb.2
  rw [if_neg hrp]
  constructor
  · intro v hv
    simp only [progressValues_append, progressValues, progressValues_ite_logServers,
        progressValues_ite_logWave, progressValues_ite_summary,
        progressValues_ite_summary2, progressValues_ite_milestone,
        progressValues_ite_rowLog, progressValues_evsPre, progressValues_evsTmp,
        progressValues_evsHdr, progressValues_r1R, evsPre, evsTmp, evsHdr,
        List.append_eq, List.append_nil, List.nil_append, List.not_mem_nil] at hv
    exact hcomb.1 v hv
  · simp only [progressValues_append, progressValues, progressValues_ite_logServers,
        progressValues_ite_logWave, progressValues_ite_summary,
        progressValues_ite_summary2, progressValues_ite_milestone,
        progressValues_ite_rowLog, progressValues_evsPre, progressValues_evsTmp,
        progressValues_evsHdr, progressValues_r1R, evsPre, evsTmp, evsHdr,
        List.append_eq, List.append_nil, List.nil_append, List.not_mem_nil]
    exact hcomb.2

/-- C7 counterexample: a run with a single surviving row reaches 100
percent at its first processed row, yet only the first milestone (index 0)
is emitted; the thresholds 25, 50, 75 and 100 never trigger any line, and
threshold 25 is not emitted at the first row whose percentage reaches it,
refuting the claim that each threshold triggers exactly one milestone line
the first time the percentage reaches or exceeds it. -/
theorem C7_counterexample :
    milestoneEvents (run_user_python_code ["src_group", "dest_group"]
      [[("src_group", "x"), ("dest_group", "x")]] [] "" [] [] (fun _ => 0) none).events
      = [(0, 100)] := by decide

/-- C7 (amended): within one run of `run_user_python_code`, milestone log
lines are emitted in threshold order and at most once each: the sequence
of emitted milestone indices is exactly 0, 1, ..., m-1 for some m at most
5, and each milestone fires at a row whose percentage has reached or
exceeded its threshold. Only one milestone can fire per processed row, so
when the percentage skips several thresholds at one row, the later
thresholds fire at later rows or, if the run ends first, never. -/
theorem C7_amended_milestones (hdr : List String) (rows : List Row)
    (server_filter : List String) (wave_filter : String)
    (srv_map loc_map : List (String × List String)) (times : Nat → Int)
    (failAt : Option Nat) :
    ∃ m, m ≤ THRESHOLDS.length ∧
      (milestoneEvents (run_user_python_code hdr rows server_filter wave_filter
        srv_map loc_map times failAt).events).map Prod.fst = List.range m ∧
      ∀ kp ∈ milestoneEvents (run_user_python_code hdr rows server_filter wave_filter
        srv_map loc_map times failAt).events,
        THRESHOLDS.getD kp.1 0 ≤ kp.2 ∧ kp.1 < THRESHOLDS.length := by
  unfold run_user_python_code
  by_cases h0 : (!fsOk failAt 0) = true
  · rw [if_pos h0]
    exact ⟨0, Nat.zero_le _, rfl, fun kp hkp => absurd hkp (List.not_mem_nil _)⟩
  rw [if_neg h0]
  by_cases h1 : (!fsOk failAt 1) = true
  · rw [if_pos h1]
    refine ⟨0, Nat.zero_le _, ?_, ?_⟩
    · simp only [milestoneEvents_append, milestoneEvents, milestoneEvents_ite_logServers,
        milestoneEvents_ite_logWave, milestoneEvents_ite_summary,
        milestoneEvents_ite_summary2, milestoneEvents_ite_progress,
        milestoneEvents_ite_rowLog, milestoneEvents_evsPre, milestoneEvents_evsTmp,
        milestoneEvents_evsHdr, milestoneEvents_r1R, evsPre, evsTmp, evsHdr,
        List.append_eq, List.append_nil, List.nil_append, List.map_nil]
      rfl
    · intro kp hkp
      simp only [milestoneEvents_append, milestoneEvents, milestoneEvents_ite_logServers,
        milestoneEvents_ite_logWave, milestoneEvents_ite_summary,
        milestoneEvents_ite_summary2, milestoneEvents_ite_progress,
        milestoneEvents_ite_rowLog, milestoneEvents_evsPre, milestoneEvents_evsTmp,
        milestoneEvents_evsHdr, milestoneEvents_r1R, evsPre, evsTmp, evsHdr,
        List.append_eq, List.append_nil, List.nil_append, List.map_nil, List.not_mem_nil] at hkp
  rw [if_neg h1]
  by_cases h2 : (!fsOk failAt 2) = true
  · rw [if_pos h2]
    refine ⟨0, Nat.zero_le _, ?_, ?_⟩
    · simp only [milestoneEvents_append, milestoneEvents, milestoneEvents_ite_logServers,
        milestoneEvents_ite_logWave, milestoneEvents_ite_summary,
        milestoneEvents_ite_summary2, milestoneEvents_ite_progress,
        milestoneEvents_ite_rowLog, milestoneEvents_evsPre, milestoneEvents_evsTmp,
        milestoneEvents_evsHdr, milestoneEvents_r1R, evsPre, evsTmp, evsHdr,
        List.append_eq, List.append_nil, List.nil_append, List.map_nil]
      rfl
    · intro kp hkp
      simp only [milestoneEvents_append, milestoneEvents, milestoneEvents_ite_logServers,
        milestoneEvents_ite_logWave, milestoneEvents_ite_summary,
        milestoneEvents_ite_summary2, milestoneEvents_ite_progress,
        milestoneEvents_ite_rowLog, milestoneEvents_evsPre, milestoneEvents_evsTmp,
        milestoneEvents_evsHdr, milestoneEvents_r1R, evsPre, evsTmp, evsHdr,
        List.append_eq, List.append_nil, List.nil_append, List.map_nil, List.not_mem_nil] at hkp
  rw [if_neg h2]
  by_cases hm : missingCols hdr ≠ []
  · rw [if_pos hm]
    refine ⟨0, Nat.zero_le _, ?_, ?_⟩
    · simp only [milestoneEvents_append, milestoneEvents, milestoneEvents_ite_logServers,
        milestoneEvents_ite_logWave, milestoneEvents_ite_summary,
        milestoneEvents_ite_summary2, milestoneEvents_ite_progress,
        milestoneEvents_ite_rowLog, milestoneEvents_evsPre, milestoneEvents_evsTmp,
        milestoneEvents_evsHdr, milestoneEvents_r1R, evsPre, evsTmp, evsHdr,
        List.append_eq, List.append_nil, List.nil_append, List.map_nil]
      rfl
    · intro kp hkp
      simp only [milestoneEvents_append, milestoneEvents, milestoneEvents_ite_logServers,
        milestoneEvents_ite_logWave, milestoneEvents_ite_summary,
        milestoneEvents_ite_summary2, milestoneEvents_ite_progress,
        milestoneEvents_ite_rowLog, milestoneEvents_evsPre, milestoneEvents_evsTmp,
        milestoneEvents_evsHdr, milestoneEvents_r1R, evsPre, evsTmp, evsHdr,
        List.append_eq, List.append_nil, List.nil_append, List.map_nil, List.not_mem_nil] at hkp
  rw [if_neg hm]
  by_cases hn : server_filter ≠ [] ∧
      ((!hdr.contains "src_name") = true ∨ (!hdr.contains "dest_name") = true)
  · rw [if_pos hn]
    refine ⟨0, Nat.zero_le _, ?_, ?_⟩
    · simp only [milestoneEvents_append, milestoneEvents, milestoneEvents_ite_logServers,
        milestoneEvents_ite_logWave, milestoneEvents_ite_summary,
        milestoneEvents_ite_summary2, milestoneEvents_ite_progress,
        milestoneEvents_ite_rowLog, milestoneEvents_evsPre, milestoneEvents_evsTmp,
        milestoneEvents_evsHdr, milestoneEvents_r1R, evsPre, evsTmp, evsHdr,
        List.append_eq, List.append_nil, List.nil_append, List.map_nil]
      rfl
    · intro kp hkp
      simp only [milestoneEvents_append, milestoneEvents, milestoneEvents_ite_logServers,
        milestoneEvents_ite_logWave, milestoneEvents_ite_summary,
        milestoneEvents_ite_summary2, milestoneEvents_ite_progress,
        milestoneEvents_ite_rowLog, milestoneEvents_evsPre, milestoneEvents_evsTmp,
        milestoneEvents_evsHdr, milestoneEvents_r1R, evsPre, evsTmp, evsHdr,
        List.append_eq, List.append_nil, List.nil_append, List.map_nil, List.not_mem_nil] at hkp
  rw [if_neg hn]
  by_cases h3 : (!fsOk failAt 3) = true
  · rw [if_pos h3]
    refine ⟨0, Nat.zero_le _, ?_, ?_⟩
    · simp only [milestoneEvents_append, milestoneEvents, milestoneEvents_ite_logServers,
        milestoneEvents_ite_logWave, milestoneEvents_ite_summary,
        milestoneEvents_ite_summary2, milestoneEvents_ite_progress,
        milestoneEvents_ite_rowLog, milestoneEvents_evsPre, milestoneEvents_evsTmp,
        milestoneEvents_evsHdr, milestoneEvents_r1R, evsPre, evsTmp, evsHdr,
        List.append_eq, List.append_nil, List.nil_append, List.map_nil]
      rfl
    · intro kp hkp
      simp only [milestoneEvents_append, milestoneEvents, milestoneEvents_ite_logServers,
        milestoneEvents_ite_logWave, milestoneEvents_ite_summary,
        milestoneEvents_ite_summary2, milestoneEvents_ite_progress,
        milestoneEvents_ite_rowLog, milestoneEvents_evsPre, milestoneEvents_evsTmp,
        milestoneEvents_evsHdr, milestoneEvents_r1R, evsPre, evsTmp, evsHdr,
        List.append_eq, List.append_nil, List.nil_append, List.map_nil, List.not_mem_nil] at hkp
  rw [if_neg h3]
  by_cases he1 : (r1R failAt server_filter wave_filter rows).error.isSome = true
  · rw [if_pos he1]
    refine ⟨0, Nat.zero_le _, ?_, ?_⟩
    · simp only [milestoneEvents_append, milestoneEvents, milestoneEvents_ite_logServers,
        milestoneEvents_ite_logWave, milestoneEvents_ite_summary,
        milestoneEvents_ite_summary2, milestoneEvents_ite_progress,
        milestoneEvents_ite_rowLog, milestoneEvents_evsPre, milestoneEvents_evsTmp,
        milestoneEvents_evsHdr, milestoneEvents_r1R, evsPre, evsTmp, evsHdr,
        List.append_eq, List.append_nil, List.nil_append, List.map_nil]
      rfl
    · intro kp hkp
      simp only [milestoneEvents_append, milestoneEvents, milestoneEvents_ite_logServers,
        milestoneEvents_ite_logWave, milestoneEvents_ite_summary,
        milestoneEvents_ite_summary2, milestoneEvents_ite_progress,
        milestoneEvents_ite_rowLog, milestoneEvents_evsPre, milestoneEvents_evsTmp,
        milestoneEvents_evsHdr, milestoneEvents_r1R, evsPre, evsTmp, evsHdr,
        List.append_eq, List.append_nil, List.nil_append, List.map_nil, List.not_mem_nil] at hkp
  rw [if_neg he1]
  by_cases hsk : (!fsOk failAt (r1R failAt server_filter wave_filter rows).fsCnt) = true
  · rw [if_pos hsk]
    refine ⟨0, Nat.zero_le _, ?_, ?_⟩
    · simp only [milestoneEvents_append, milestoneEvents, milestoneEvents_ite_logServers,
        milestoneEvents_ite_logWave, milestoneEvents_ite_summary,
        milestoneEvents_ite_summary2, milestoneEvents_ite_progress,
        milestoneEvents_ite_rowLog, milestoneEvents_evsPre, milestoneEvents_evsTmp,
        milestoneEvents_evsHdr, milestoneEvents_r1R, evsPre, evsTmp, evsHdr,
        List.append_eq, List.append_nil, List.nil_append, List.map_nil]
      rfl
    · intro kp hkp
      simp only [milestoneEvents_append, milestoneEvents, milestoneEvents_ite_logServers,
        milestoneEvents_ite_logWave, milestoneEvents_ite_summary,
        milestoneEvents_ite_summary2, milestoneEvents_ite_progress,
        milestoneEvents_ite_rowLog, milestoneEvents_evsPre, milestoneEvents_evsTmp,
        milestoneEvents_evsHdr, milestoneEvents_r1R, evsPre, evsTmp, evsHdr,
        List.append_eq, List.append_nil, List.nil_append, List.map_nil, List.not_mem_nil] at hkp
  rw [if_neg hsk]
  by_cases he2 : (r2R failAt times srv_map loc_map server_filter wave_filter
      rows).error.isSome = true
  · rw [if_pos he2]
    obtain ⟨m, hm5, hmap, hmem⟩ := r2R_milestones failAt times srv_map loc_map
      server_filter wave_filter rows
    refine ⟨m, hm5, ?_, ?_⟩
    · simp only [milestoneEvents_append, milestoneEvents, milestoneEvents_ite_logServers,
        milestoneEvents_ite_logWave, milestoneEvents_ite_summary,
        milestoneEvents_ite_summary2, milestoneEvents_ite_progress,
        milestoneEvents_ite_rowLog, milestoneEvents_evsPre, milestoneEvents_evsTmp,
        milestoneEvents_evsHdr, milestoneEvents_r1R, evsPre, evsTmp, evsHdr,
        List.append_eq, List.append_nil, List.nil_append, List.map_nil]
      exact hmap
    · intro kp hkp
      simp only [milestoneEvents_append, milestoneEvents, milestoneEvents_ite_logServers,
        milestoneEvents_ite_logWave, milestoneEvents_ite_summary,
        milestoneEvents_ite_summary2, milestoneEvents_ite_progress,
        milestoneEvents_ite_rowLog, milestoneEvents_evsPre, milestoneEvents_evsTmp,
        milestoneEvents_evsHdr, milestoneEvents_r1R, evsPre, evsTmp, evsHdr,
        List.append_eq, List.append_nil, List.nil_append, List.map_nil] at hkp
      exact hmem kp hkp
  rw [if_neg he2]
  by_cases hcl : (!fsOk failAt
      (r2R failAt times srv_map loc_map server_filter wave_filter rows).st.fsCnt) = true
  · rw [if_pos hcl]
    obtain ⟨m, hm5, hmap, hmem⟩ := r2R_milestones failAt times srv_map loc_map
      server_filter wave_filter rows
    refine ⟨m, hm5, ?_, ?_⟩
    · simp only [milestoneEvents_append, milestoneEvents, milestoneEvents_ite_logServers,
        milestoneEvents_ite_logWave, milestoneEvents_ite_summary,
        milestoneEvents_ite_summary2, milestoneEvents_ite_progress,
        milestoneEvents_ite_rowLog, milestoneEvents_evsPre, milestoneEvents_evsTmp,
        milestoneEvents_evsHdr, milestoneEvents_r1R, evsPre, evsTmp, evsHdr,
        List.append_eq, List.append_nil, List.nil_append, List.map_nil]
      exact hmap
    · intro kp hkp
      simp only [milestoneEvents_append, milestoneEvents, milestoneEvents_ite_logServers,
        milestoneEvents_ite_logWave, milestoneEvents_ite_summary,
        milestoneEvents_ite_summary2, milestoneEvents_ite_progress,
        milestoneEvents_ite_rowLog, milestoneEvents_evsPre, milestoneEvents_evsTmp,
        milestoneEvents_evsHdr, milestoneEvents_r1R, evsPre, evsTmp, evsHdr,
        List.append_eq, List.append_nil, List.nil_append, List.map_nil] at hkp
      exact hmem kp hkp
  rw [if_neg hcl]
  by_cases hrp : (!fsOk failAt
      ((r2R failAt times srv_map loc_map server_filter wave_filter rows).st.fsCnt + 1))
      = true
  · rw [if_pos hrp]
    obtain ⟨m, hm5, hmap, hmem⟩ := r2R_milestones failAt times srv_map loc_map
      server_filter wave_filter rows
    refine ⟨m, hm5, ?_, ?_⟩
    · simp only [milestoneEvents_append, milestoneEvents, milestoneEvents_ite_logServers,
        milestoneEvents_ite_logWave, milestoneEvents_ite_summary,
        milestoneEvents_ite_summary2, milestoneEvents_ite_progress,
        milestoneEvents_ite_rowLog, milestoneEvents_evsPre, milestoneEvents_evsTmp,
        milestoneEvents_evsHdr, milestoneEvents_r1R, evsPre, evsTmp, evsHdr,
        List.append_eq, List.append_nil, List.nil_append, List.map_nil]
      exact hmap
    · intro kp hkp
      simp only [milestoneEvents_append, milestoneEvents, milestoneEvents_ite_logServers,
        milestoneEvents_ite_logWave, milestoneEvents_ite_summary,
        milestoneEvents_ite_summary2, milestoneEvents_ite_progress,
        milestoneEvents_ite_rowLog, milestoneEvents_evsPre, milestoneEvents_evsTmp,
        milestoneEvents_evsHdr, milestoneEvents_r1R, evsPre, evsTmp, evsHdr,
        List.append_eq, List.append_nil, List.nil_append, List.map_nil] at hkp
      exact hmem kp hkp
  rw [if_neg hrp]
  obtain ⟨m, hm5, hmap, hmem⟩ := r2R_milestones failAt times srv_map loc_map
    server_filter wave_filter rows
  refine ⟨m, hm5, ?_, ?_⟩
  · simp only [milestoneEvents_append, milestoneEvents, milestoneEvents_ite_logServers,
        milestoneEvents_ite_logWave, milestoneEvents_ite_summary,
        milestoneEvents_ite_summary2, milestoneEvents_ite_progress,
        milestoneEvents_ite_rowLog, milestoneEvents_evsPre, milestoneEvents_evsTmp,
        milestoneEvents_evsHdr, milestoneEvents_r1R, evsPre, evsTmp, evsHdr,
        List.append_eq, List.append_nil, List.nil_append, List.map_nil]
    exact hmap
  · intro kp hkp
    simp only [milestoneEvents_append, milestoneEvents, milestoneEvents_ite_logServers,
        milestoneEvents_ite_logWave, milestoneEvents_ite_summary,
        milestoneEvents_ite_summary2, milestoneEvents_ite_progress,
        milestoneEvents_ite_rowLog, milestoneEvents_evsPre, milestoneEvents_evsTmp,
        milestoneEvents_evsHdr, milestoneEvents_r1R, evsPre, evsTmp, evsHdr,
        List.append_eq, List.append_nil, List.nil_append, List.map_nil] at hkp
    exact hmem kp hkp

theorem fsEvents_evsTmp (n : Nat) (sf : List String) (wf : String) :
    fsEvents (evsTmp n sf wf) = [FsOp.countOpen, FsOp.openSrc, FsOp.createTmp] := by
  simp only [evsTmp, evsPre, fsEvents_append, fsEvents_ite_logServers,
    fsEvents_ite_logWave, fsEvents, List.append_eq, List.append_nil, List.nil_append]

/-- C8 counterexample: with header `[]` and a configured server filter
`["A"]`, the columns src_group, dest_group, src_name and dest_name are all
missing, but the run fails with the message "Missing columns: src_group,
dest_group", which does not list the missing name columns — refuting the
claim that the single error message lists every missing column name. -/
theorem C8_counterexample :
    (run_user_python_code [] [] ["A"] "" [] [] (fun _ => 0) none).error
      = some "Missing columns: src_group, dest_group" ∧
    containsSubstr "src_name" "Missing columns: src_group, dest_group" = false := by
  decide

/-- C8 (amended): required-column validation happens before any row is
read or written, in two stages. If a filter column is missing, the run
fails with one error listing every missing filter column; otherwise, if a
server filter is configured and a name column is missing, it fails with
the fixed message naming src_name and dest_name. When both stages would
fail, only the filter-column message is raised, so the message need not
list missing name columns. In both cases the only file-system operations
performed are the counting open, the input open and the temporary-file
creation — validation fails before Processing. -/
theorem C8_amended_schema_validation (hdr : List String) (rows : List Row)
    (server_filter : List String) (wave_filter : String)
    (srv_map loc_map : List (String × List String)) (times : Nat → Int)
    (h : missingCols hdr ≠ [] ∨
      (missingCols hdr = [] ∧ server_filter ≠ [] ∧
        ((!hdr.contains "src_name") = true ∨ (!hdr.contains "dest_name") = true))) :
    (run_user_python_code hdr rows server_filter wave_filter srv_map loc_map times
      none).error
      = some (if missingCols hdr ≠ [] then missingColsMsg (missingCols hdr)
          else nameColsMsg) ∧
    fsEvents (run_user_python_code hdr rows server_filter wave_filter srv_map loc_map
      times none).events = [FsOp.countOpen, FsOp.openSrc, FsOp.createTmp] := by
  unfold run_user_python_code
  rw [if_neg (by decide : ¬((!fsOk none 0) = true)),
    if_neg (by decide : ¬((!fsOk none 1) = true)),
    if_neg (by decide : ¬((!fsOk none 2) = true))]
  rcases h with h | ⟨hmiss, hsf, hcols⟩
  · rw [if_pos h]
    constructor
    · show some (missingColsMsg (missingCols hdr)) = _
      rw [if_pos h]
    · exact fsEvents_evsTmp rows.length server_filter wave_filter
  · rw [if_neg (fun hh => hh hmiss), if_pos ⟨hsf, hcols⟩]
    constructor
    · show some nameColsMsg = _
      rw [if_neg (fun hh => hh hmiss)]
    · exact fsEvents_evsTmp rows.length server_filter wave_filter

/-- C8 witness: the counterexample configuration instantiates the amended
theorem through its first (missing-filter-columns) stage. -/
theorem C8_witness :
    (run_user_python_code [] [] ["A"] "" [] [] (fun _ => 0) none).error
      = some (if missingCols [] ≠ [] then missingColsMsg (missingCols [])
          else nameColsMsg) ∧
    fsEvents (run_user_python_code [] [] ["A"] "" [] [] (fun _ => 0) none).events
      = [FsOp.countOpen, FsOp.openSrc, FsOp.createTmp] :=
  C8_amended_schema_validation [] [] ["A"] "" [] [] (fun _ => 0) (Or.inl (by decide))

/-- C5 witness: a concrete successful run (empty input, no filters, no
injected failure) whose last file-system operation is the rename. -/
theorem C5_witness :
    ((run_user_python_code ["src_group", "dest_group"] [] [] "" [] [] (fun _ => 0)
        none).error.isSome →
      FsOp.replaceFinal ∉ fsEvents (run_user_python_code ["src_group", "dest_group"]
        [] [] "" [] [] (fun _ => 0) none).events) ∧
    ((run_user_python_code ["src_group", "dest_group"] [] [] "" [] [] (fun _ => 0)
        none).error = none →
      (fsEvents (run_user_python_code ["src_group", "dest_group"] [] [] "" [] []
        (fun _ => 0) none).events).getLast? = some FsOp.replaceFinal) :=
  C5_atomic_publication ["src_group", "dest_group"] [] [] "" [] [] (fun _ => 0) none

/-- C6 witness: the progress-value bounds and monotonicity at a concrete
run with one surviving row. -/
theorem C6_witness :
    (∀ v ∈ progressValues (run_user_python_code ["src_group", "dest_group"]
      [[("src_group", "x"), ("dest_group", "x")]] [] "" [] [] (fun _ => 0)
      none).events, v ≤ 100) ∧
    List.Chain' (fun a b => a ≤ b)
      (progressValues (run_user_python_code ["src_group", "dest_group"]
        [[("src_group", "x"), ("dest_group", "x")]] [] "" [] [] (fun _ => 0)
        none).events) :=
  C6_progress_monotone ["src_group", "dest_group"]
    [[("src_group", "x"), ("dest_group", "x")]] [] "" [] [] (fun _ => 0) none

/-- C7 witness: the amended milestone property at a concrete run with one
surviving row (one milestone, index 0, fired at 100 percent). -/
theorem C7_amended_witness :
    ∃ m, m ≤ THRESHOLDS.length ∧
      (milestoneEvents (run_user_python_code ["src_group", "dest_group"]
        [[("src_group", "x"), ("dest_group", "x")]] [] "" [] [] (fun _ => 0)
        none).events).map Prod.fst = List.range m ∧
      ∀ kp ∈ milestoneEvents (run_user_python_code ["src_group", "dest_group"]
        [[("src_group", "x"), ("dest_group", "x")]] [] "" [] [] (fun _ => 0)
        none).events,
        THRESHOLDS.getD kp.1 0 ≤ kp.2 ∧ kp.1 < THRESHOLDS.length :=
  C7_amended_milestones ["src_group", "dest_group"]
    [[("src_group", "x"), ("dest_group", "x")]] [] "" [] [] (fun _ => 0) none
